import Mathlib

/-!
# Verification of the ui-extractor token-extraction core

This file is a shallow embedding, in Lean 4, of the algorithmic core of the
`ui-extractor` repository (color-space conversion, perceptual deduplication,
confidence scoring, the spacing and borders extractors, and the orchestrator),
together with theorems settling the frozen claims about that code.

Embedding conventions:
* JavaScript strings are modelled as `List Char`; `String` literals are turned
  into character lists with `.data`.  JS `toLowerCase`/`toUpperCase`/`trim` are
  modelled on ASCII, which covers every character the color/radius grammars use.
* JavaScript numbers are idealised as exact arithmetic: integer-valued numbers
  as `ℤ`/`ℕ`, general finite values as `ℚ`, and `NaN` as `Option.none` wherever
  the code can produce it (`parseInt`/`parseFloat` failures).  Floating-point
  literal comparisons such as `ratio > 0.7` are modelled as exact rational
  comparisons; for the list lengths involved the double-precision comparison
  agrees with the rational one.  Transcendental color mathematics
  (`Math.pow`, `Math.cbrt`, `Math.atan2`, ...) is modelled over `ℝ`.
* `parseInt(s, b)` / `parseFloat(s)` are modelled faithfully for finite decimal
  notation (whitespace and sign skipping, maximal valid prefix, `0x` stripping
  for radix 16, fractional and exponent parts for `parseFloat`); the `Infinity`
  literal and overflow to infinity are outside the model.
* The unanchored regular-expression searches of `parseColor` are modelled as a
  leftmost-match scan; the two regexes involved are deterministic (their
  character classes are disjoint), so greedy matching without backtracking is
  an exact model.
-/

namespace UIExtract

/-! ## Character and string primitives (JS string operations) -/

/-- JS whitespace as relevant to `trim` / numeric parsing (ASCII subset). -/
def isJsWs (c : Char) : Bool :=
  c = ' ' ∨ c = '\t' ∨ c = '\n' ∨ c = '\r'

/-- `String.prototype.toLowerCase`, ASCII. -/
def jsLowerChar (c : Char) : Char :=
  if 'A' ≤ c ∧ c ≤ 'Z' then Char.ofNat (c.toNat + 32) else c

/-- `String.prototype.toUpperCase`, ASCII. -/
def jsUpperChar (c : Char) : Char :=
  if 'a' ≤ c ∧ c ≤ 'z' then Char.ofNat (c.toNat - 32) else c

def jsToLower (cs : List Char) : List Char := cs.map jsLowerChar

def jsToUpper (cs : List Char) : List Char := cs.map jsUpperChar

/-- `String.prototype.trim` (both ends). -/
def jsTrim (cs : List Char) : List Char :=
  (cs.dropWhile isJsWs).reverse.dropWhile isJsWs |>.reverse

/-! ## Digit characters and base conversion -/

/-- The digit characters produced by `Number.prototype.toString` for bases up
to 16 (lowercase, as in JS). -/
def hexDigitChar (n : ℕ) : Char :=
  match n with
  | 0 => '0' | 1 => '1' | 2 => '2' | 3 => '3' | 4 => '4'
  | 5 => '5' | 6 => '6' | 7 => '7' | 8 => '8' | 9 => '9'
  | 10 => 'a' | 11 => 'b' | 12 => 'c' | 13 => 'd' | 14 => 'e'
  | 15 => 'f' | _ => '*'

/-- Base-conversion worker, structurally recursive on a fuel bound so that it
reduces in the kernel.  `digitsGo b fuel n` is the base-`b` digit string of `n`
provided `n < fuel`. -/
def digitsGo (b : ℕ) : ℕ → ℕ → List Char
  | 0, _ => []
  | fuel + 1, n =>
    if n < b then [hexDigitChar n]
    else digitsGo b fuel (n / b) ++ [hexDigitChar (n % b)]

lemma digitsGo_congr (b : ℕ) (hb : 2 ≤ b) :
    ∀ fuel fuel' n, n < fuel → n < fuel' → digitsGo b fuel n = digitsGo b fuel' n := by
  intro fuel
  induction fuel with
  | zero => omega
  | succ f ih =>
    intro fuel' n hn hn'
    match fuel', hn' with
    | f' + 1, _ =>
      simp only [digitsGo]
      split
      · rfl
      · have hdiv : n / b < n := Nat.div_lt_self (by omega) hb
        rw [ih f' (n / b) (by omega) (by omega)]

/-- Digits of `n` in base 10, most significant first (`n.toString()`／`${n}`). -/
def decDigits (n : ℕ) : List Char := digitsGo 10 (n + 1) n

/-- Digits of `n` in base 16, most significant first (`n.toString(16)`). -/
def hexDigits (n : ℕ) : List Char := digitsGo 16 (n + 1) n

/-- The recursive unfolding of `decDigits`. -/
lemma decDigits_eq (n : ℕ) :
    decDigits n = if n < 10 then [hexDigitChar n]
      else decDigits (n / 10) ++ [hexDigitChar (n % 10)] := by
  show digitsGo 10 (n + 1) n = _
  rcases Nat.lt_or_ge n 10 with h | h
  · rw [digitsGo, if_pos h, if_pos h]
  · have hdiv : n / 10 < n := Nat.div_lt_self (by omega) (by omega)
    rw [digitsGo, if_neg (by omega), if_neg (by omega), decDigits,
      digitsGo_congr 10 (by omega) n (n / 10 + 1) (n / 10) hdiv (Nat.lt_succ_self _)]

/-- The recursive unfolding of `hexDigits`. -/
lemma hexDigits_eq (n : ℕ) :
    hexDigits n = if n < 16 then [hexDigitChar n]
      else hexDigits (n / 16) ++ [hexDigitChar (n % 16)] := by
  show digitsGo 16 (n + 1) n = _
  rcases Nat.lt_or_ge n 16 with h | h
  · rw [digitsGo, if_pos h, if_pos h]
  · have hdiv : n / 16 < n := Nat.div_lt_self (by omega) (by omega)
    rw [digitsGo, if_neg (by omega), if_neg (by omega), hexDigits,
      digitsGo_congr 16 (by omega) n (n / 16 + 1) (n / 16) hdiv (Nat.lt_succ_self _)]

/-- `${i}` for an integer-valued JS number. -/
def intDecStr (i : ℤ) : List Char :=
  if i < 0 then '-' :: decDigits i.natAbs else decDigits i.natAbs

/-- Numeric value of a decimal digit character. -/
def digitVal (c : Char) : ℕ := c.toNat - 48

/-- Numeric value of a hexadecimal digit character, if it is one. -/
def hexVal? (c : Char) : Option ℕ :=
  if '0' ≤ c ∧ c ≤ '9' then some (c.toNat - 48)
  else if 'a' ≤ c ∧ c ≤ 'f' then some (c.toNat - 87)
  else if 'A' ≤ c ∧ c ≤ 'F' then some (c.toNat - 55)
  else none

def foldDec (ds : List Char) : ℕ :=
  ds.foldl (fun acc c => 10 * acc + digitVal c) 0

def foldHex (ds : List Char) : ℕ :=
  ds.foldl (fun acc c => 16 * acc + ((hexVal? c).getD 0)) 0

/-! ## JS numeric parsing

`Option` models `NaN`: `none` is the `NaN` result of a failed parse. -/

/-- Strip an optional leading sign; `true` means negative. -/
def stripSign : List Char → (Bool × List Char)
  | [] => (false, [])
  | c :: rest =>
    if c = '-' then (true, rest)
    else if c = '+' then (false, rest)
    else (false, c :: rest)

/-- `parseInt(s, 10)`. -/
def jsParseInt10 (cs : List Char) : Option ℤ :=
  let cs := cs.dropWhile isJsWs
  let (neg, cs) := stripSign cs
  let digits := cs.takeWhile Char.isDigit
  if digits = [] then none
  else some (if neg then -(foldDec digits : ℤ) else (foldDec digits : ℤ))

/-- `parseInt(s, 16)` (also strips an optional `0x` / `0X` prefix). -/
def jsParseInt16 (cs : List Char) : Option ℤ :=
  let cs1 := cs.dropWhile isJsWs
  let sgn := stripSign cs1
  let cs2 :=
    if sgn.2.head? = some '0' ∧ (sgn.2.tail.head? = some 'x' ∨ sgn.2.tail.head? = some 'X')
    then sgn.2.tail.tail else sgn.2
  let digits := cs2.takeWhile (fun c => (hexVal? c).isSome)
  if digits = [] then none
  else some (if sgn.1 then -(foldHex digits : ℤ) else (foldHex digits : ℤ))

/-- The exponent part of `parseFloat`: optional sign and digits. -/
def expDigits (r : List Char) : Option ℤ :=
  let sgn := stripSign r
  let ds := sgn.2.takeWhile Char.isDigit
  if ds = [] then none
  else some (if sgn.1 then -(foldDec ds : ℤ) else (foldDec ds : ℤ))

/-- `parseFloat(s)` for finite decimal notation: longest prefix of the form
`sign? (digits (.digits?)? | .digits) ((e|E) sign? digits)?`. -/
def jsParseFloat (cs : List Char) : Option ℚ :=
  let cs1 := cs.dropWhile isJsWs
  let sgn := stripSign cs1
  let cs2 := sgn.2
  let intPart := cs2.takeWhile Char.isDigit
  let rest := cs2.dropWhile Char.isDigit
  let fracPart := if rest.head? = some '.' then rest.tail.takeWhile Char.isDigit else []
  let rest' := if rest.head? = some '.' then rest.tail.dropWhile Char.isDigit else rest
  if intPart = [] ∧ fracPart = [] then none
  else
    let mantissa : ℚ :=
      (foldDec intPart : ℚ) + (foldDec fracPart : ℚ) / ((10:ℚ) ^ fracPart.length)
    let expVal : ℤ :=
      if rest'.head? = some 'e' ∨ rest'.head? = some 'E' then (expDigits rest'.tail).getD 0
      else 0
    let v := mantissa * (10:ℚ) ^ expVal
    some (if sgn.1 then -v else v)

/-- `Math.round` (half toward `+∞`). -/
def jsRound (q : ℚ) : ℤ := ⌊q + 1/2⌋

/-! ## color-convert.js — parsing side

Every code path that builds an `RGBColor` produces integer-valued `r`, `g`,
`b` channels (`parseInt` results or `Math.round` of the HSL conversion), so
the channels are modelled as `Option ℤ` (`none` = `NaN`); the alpha channel
can be fractional, hence `Option ℚ`. -/

structure RGB where
  r : Option ℤ
  g : Option ℤ
  b : Option ℤ
  a : Option ℚ
deriving DecidableEq

/-- `hexToRgb(hex)` of color-convert.js. -/
def hexToRgb (cs : List Char) : Option RGB :=
  if cs = [] then none
  else
    let h := match cs with
      | '#' :: rest => rest
      | l => l
    let h := if h.length = 3 then (h.map (fun c => [c, c])).flatten else h
    if h.length = 8 then
      some { r := jsParseInt16 (h.take 2)
             g := jsParseInt16 ((h.drop 2).take 2)
             b := jsParseInt16 ((h.drop 4).take 2)
             a := (jsParseInt16 ((h.drop 6).take 2)).map (fun v => (v : ℚ) / 255) }
    else if h.length = 6 then
      some { r := jsParseInt16 (h.take 2)
             g := jsParseInt16 ((h.drop 2).take 2)
             b := jsParseInt16 ((h.drop 4).take 2)
             a := some 1 }
    else none

/-- The `hue2rgb` helper of `hslToRgb`. -/
def hue2rgb (p q t : ℚ) : ℚ :=
  let t := if t < 0 then t + 1 else t
  let t := if t > 1 then t - 1 else t
  if t < 1/6 then p + (q - p) * 6 * t
  else if t < 1/2 then q
  else if t < 2/3 then p + (q - p) * (2/3 - t) * 6
  else p

/-- `hslToRgb(h, s, l)` of color-convert.js, returning the rounded integer
channels; a `NaN` (`none`) saturation or lightness propagates to all three
channels, exactly as NaN does through the JS arithmetic. -/
def hslToRgb (h : ℤ) (s l : Option ℚ) : Option ℤ × Option ℤ × Option ℤ :=
  match s, l with
  | some s, some l =>
    if s = 0 then
      (some (jsRound (l * 255)), some (jsRound (l * 255)), some (jsRound (l * 255)))
    else
      let q := if l < 1/2 then l * (1 + s) else l + s - l * s
      let p := 2 * l - q
      let r := hue2rgb p q ((h : ℚ) / 360 + 1/3)
      let g := hue2rgb p q ((h : ℚ) / 360)
      let b := hue2rgb p q ((h : ℚ) / 360 - 1/3)
      (some (jsRound (r * 255)), some (jsRound (g * 255)), some (jsRound (b * 255)))
  | _, _ => (none, none, none)

/-! ### The two regular expressions of `parseColor`

`/rgba?\(\s*(\d+)\s*,\s*(\d+)\s*,\s*(\d+)\s*(?:,\s*([\d.]+))?\s*\)/` and
`/hsla?\(\s*(\d+)\s*,\s*([\d.]+)%\s*,\s*([\d.]+)%\s*(?:,\s*([\d.]+))?\s*\)/`,
searched unanchored (leftmost match).  Adjacent character classes are
disjoint, so greedy matching with no backtracking is exact. -/

def skipWs (cs : List Char) : List Char := cs.dropWhile isJsWs

/-- Greedy `(\d+)`: at least one digit. -/
def matchDigits1 (cs : List Char) : Option (List Char × List Char) :=
  let ds := cs.takeWhile Char.isDigit
  if ds = [] then none else some (ds, cs.dropWhile Char.isDigit)

def isDigitOrDot (c : Char) : Bool := c.isDigit ∨ c = '.'

/-- Greedy `([\d.]+)`: at least one digit or dot. -/
def matchNumDot1 (cs : List Char) : Option (List Char × List Char) :=
  let ds := cs.takeWhile isDigitOrDot
  if ds = [] then none else some (ds, cs.dropWhile isDigitOrDot)

/-- Captures of the `rgb()` regex. -/
structure RgbCaps where
  d1 : List Char
  d2 : List Char
  d3 : List Char
  alpha : Option (List Char)
deriving DecidableEq

/-- Try the `rgb()` regex at the start of the input. -/
def matchRgbAt (cs : List Char) : Option RgbCaps :=
  match cs with
  | 'r' :: 'g' :: 'b' :: rest =>
    let rest := match rest with
      | 'a' :: r => r
      | r => r
    match rest with
    | '(' :: r =>
      match matchDigits1 (skipWs r) with
      | none => none
      | some (d1, r) =>
        match skipWs r with
        | ',' :: r =>
          match matchDigits1 (skipWs r) with
          | none => none
          | some (d2, r) =>
            match skipWs r with
            | ',' :: r =>
              match matchDigits1 (skipWs r) with
              | none => none
              | some (d3, r) =>
                match skipWs r with
                | ',' :: r =>
                  match matchNumDot1 (skipWs r) with
                  | none => none
                  | some (al, r) =>
                    match skipWs r with
                    | ')' :: _ => some ⟨d1, d2, d3, some al⟩
                    | _ => none
                | ')' :: _ => some ⟨d1, d2, d3, none⟩
                | _ => none
            | _ => none
        | _ => none
    | _ => none
  | _ => none

/-- Leftmost match of the `rgb()` regex anywhere in the string. -/
def searchRgb : List Char → Option RgbCaps
  | [] => none
  | c :: rest =>
    match matchRgbAt (c :: rest) with
    | some caps => some caps
    | none => searchRgb rest

/-- Captures of the `hsl()` regex. -/
structure HslCaps where
  hcap : List Char
  scap : List Char
  lcap : List Char
  alpha : Option (List Char)
deriving DecidableEq

/-- Try the `hsl()` regex at the start of the input. -/
def matchHslAt (cs : List Char) : Option HslCaps :=
  match cs with
  | 'h' :: 's' :: 'l' :: rest =>
    let rest := match rest with
      | 'a' :: r => r
      | r => r
    match rest with
    | '(' :: r =>
      match matchDigits1 (skipWs r) with
      | none => none
      | some (d1, r) =>
        match skipWs r with
        | ',' :: r =>
          match matchNumDot1 (skipWs r) with
          | none => none
          | some (sCap, r) =>
            match r with
            | '%' :: r =>
              match skipWs r with
              | ',' :: r =>
                match matchNumDot1 (skipWs r) with
                | none => none
                | some (lCap, r) =>
                  match r with
                  | '%' :: r =>
                    match skipWs r with
                    | ',' :: r =>
                      match matchNumDot1 (skipWs r) with
                      | none => none
                      | some (al, r) =>
                        match skipWs r with
                        | ')' :: _ => some ⟨d1, sCap, lCap, some al⟩
                        | _ => none
                    | ')' :: _ => some ⟨d1, sCap, lCap, none⟩
                    | _ => none
                  | _ => none
              | _ => none
            | _ => none
        | _ => none
    | _ => none
  | _ => none

/-- Leftmost match of the `hsl()` regex anywhere in the string. -/
def searchHsl : List Char → Option HslCaps
  | [] => none
  | c :: rest =>
    match matchHslAt (c :: rest) with
    | some caps => some caps
    | none => searchHsl rest

/-- `parseColor(colorStr)` of color-convert.js. -/
def parseColor (cs : List Char) : Option RGB :=
  if cs = [] ∨ cs = "transparent".data then none
  else
    let str := jsToLower (jsTrim cs)
    match str with
    | '#' :: _ => hexToRgb str
    | _ =>
      match searchRgb str with
      | some caps =>
        some { r := jsParseInt10 caps.d1
               g := jsParseInt10 caps.d2
               b := jsParseInt10 caps.d3
               a := match caps.alpha with
                 | some al => jsParseFloat al
                 | none => some 1 }
      | none =>
        match searchHsl str with
        | some caps =>
          let hv := (jsParseInt10 caps.hcap).getD 0
          let sv := (jsParseFloat caps.scap).map (fun q => q / 100)
          let lv := (jsParseFloat caps.lcap).map (fun q => q / 100)
          match hslToRgb hv sv lv with
          | (r, g, b) =>
            some { r := r, g := g, b := b
                   a := match caps.alpha with
                     | some al => jsParseFloat al
                     | none => some 1 }
        | none => none

/-! ## color-convert.js — formatting side -/

/-- One channel of `rgbToHex`: `toHex(n)` =
`Math.round(Math.max(0, Math.min(255, n))).toString(16)` left-padded to two
characters.  A `NaN` channel stringifies to `"NaN"` (and is not padded, since
its length is 3). -/
def toHexByte (n : Option ℤ) : List Char :=
  match n with
  | none => "NaN".data
  | some v =>
    let clamped := max 0 (min 255 v)
    let hx := hexDigits clamped.toNat
    if hx.length = 1 then '0' :: hx else hx

/-- `rgbToHex(rgb)` of color-convert.js (template-joins the three channels
after `#` and uppercases the result). -/
def rgbToHex (rgb : Option RGB) : Option (List Char) :=
  match rgb with
  | none => none
  | some c => some (jsToUpper ('#' :: (toHexByte c.r ++ toHexByte c.g ++ toHexByte c.b)))

/-- `normalizeToHex(colorStr)` of color-convert.js. -/
def normalizeToHex (cs : List Char) : Option (List Char) :=
  rgbToHex (parseColor cs)

/-- `${n}` for a JS number that is an integer or `NaN`. -/
def jsNumStr (n : Option ℤ) : List Char :=
  match n with
  | none => "NaN".data
  | some v => intDecStr v

/-- `formatRgb(rgb)` of color-convert.js. -/
def formatRgb (rgb : Option RGB) : Option (List Char) :=
  match rgb with
  | none => none
  | some c =>
    some (("rgb(".data) ++ jsNumStr c.r ++ (", ".data) ++ jsNumStr c.g
      ++ (", ".data) ++ jsNumStr c.b ++ [')'])

/-- The canonical `rgb(r, g, b)` character list produced by `formatRgb` for
integer channels. -/
def rgbStr (r g b : ℕ) : List Char :=
  'r' :: 'g' :: 'b' :: '(' ::
    (decDigits r ++ (',' :: ' ' ::
      (decDigits g ++ (',' :: ' ' ::
        (decDigits b ++ [')'])))))

/-! ## color-convert.js — colorimetric transforms (over `ℝ`) -/

structure XYZ where
  x : ℝ
  y : ℝ
  z : ℝ

structure LAB where
  l : ℝ
  a : ℝ
  b : ℝ

structure LCH where
  l : ℝ
  c : ℝ
  h : ℝ

/-- sRGB gamma linearisation used by `rgbToXyz`. -/
noncomputable def srgbLin (u : ℝ) : ℝ :=
  if u > 0.04045 then ((u + 0.055) / 1.055) ^ (2.4 : ℝ) else u / 12.92

/-- `Math.cbrt`. -/
noncomputable def jsCbrt (x : ℝ) : ℝ :=
  if x < 0 then -((-x) ^ ((1 : ℝ)/3)) else x ^ ((1 : ℝ)/3)

/-- `Math.atan2`. -/
noncomputable def jsAtan2 (y x : ℝ) : ℝ :=
  if x > 0 then Real.arctan (y / x)
  else if x < 0 ∧ 0 ≤ y then Real.arctan (y / x) + Real.pi
  else if x < 0 then Real.arctan (y / x) - Real.pi
  else if y > 0 then Real.pi / 2
  else if y < 0 then -(Real.pi / 2)
  else 0

/-- `rgbToXyz(rgb)` of color-convert.js (on the numeric channels). -/
noncomputable def rgbToXyz (r g b : ℝ) : XYZ :=
  let r := srgbLin (r / 255)
  let g := srgbLin (g / 255)
  let b := srgbLin (b / 255)
  { x := (r * 0.4124564 + g * 0.3575761 + b * 0.1804375) * 100
    y := (r * 0.2126729 + g * 0.7151522 + b * 0.0721750) * 100
    z := (r * 0.0193339 + g * 0.1191920 + b * 0.9503041) * 100 }

/-- `xyzToLab(xyz)` of color-convert.js (D65 white, ε = 0.008856,
κ = 903.3). -/
noncomputable def xyzToLab (v : XYZ) : LAB :=
  let x := v.x / 95.047
  let y := v.y / 100.0
  let z := v.z / 108.883
  let fx := if x > 0.008856 then jsCbrt x else (903.3 * x + 16) / 116
  let fy := if y > 0.008856 then jsCbrt y else (903.3 * y + 16) / 116
  let fz := if z > 0.008856 then jsCbrt z else (903.3 * z + 16) / 116
  { l := max 0 (116 * fy - 16)
    a := 500 * (fx - fy)
    b := 200 * (fy - fz) }

noncomputable def rgbToLab (r g b : ℝ) : LAB := xyzToLab (rgbToXyz r g b)

/-- `labToLch(lab)` of color-convert.js. -/
noncomputable def labToLch (lab : LAB) : LCH :=
  let c := Real.sqrt (lab.a * lab.a + lab.b * lab.b)
  let h := jsAtan2 lab.b lab.a * (180 / Real.pi)
  { l := lab.l, c := c, h := if h < 0 then h + 360 else h }

noncomputable def rgbToLch (r g b : ℝ) : LCH := labToLch (rgbToLab r g b)

/-- `rgbToOklch(rgb)` of color-convert.js (linear RGB → LMS → cube root →
OKLab → polar). -/
noncomputable def rgbToOklch (r g b : ℝ) : LCH :=
  let lr := srgbLin (r / 255)
  let lg := srgbLin (g / 255)
  let lb := srgbLin (b / 255)
  let lm := 0.4122214708 * lr + 0.5363325363 * lg + 0.0514459929 * lb
  let mm := 0.2119034982 * lr + 0.6806995451 * lg + 0.1073969566 * lb
  let sm := 0.0883024619 * lr + 0.2817188376 * lg + 0.6299787005 * lb
  let l := jsCbrt lm
  let m := jsCbrt mm
  let s := jsCbrt sm
  let okl := 0.2104542553 * l + 0.7936177850 * m - 0.0040720468 * s
  let oka := 1.9779984951 * l - 2.4285922050 * m + 0.4505937099 * s
  let okb := 0.0259040371 * l + 0.7827717662 * m - 0.8086757660 * s
  let c := Real.sqrt (oka * oka + okb * okb)
  let h := jsAtan2 okb oka * (180 / Real.pi)
  { l := okl, c := c, h := if h < 0 then h + 360 else h }

/-! ## delta-e.js -/

/-- `deltaE76(lab1, lab2)` of delta-e.js: Euclidean distance in LAB. -/
noncomputable def deltaE76 (lab1 lab2 : LAB) : ℝ :=
  let dL := lab1.l - lab2.l
  let da := lab1.a - lab2.a
  let db := lab1.b - lab2.b
  Real.sqrt (dL * dL + da * da + db * db)

/-- `deltaE2000(lab1, lab2)` of delta-e.js: the full CIEDE2000 formula,
transcribed term by term (`Math.pow(x, 7)` and `Math.pow(x, 2)` on these
non-negative bases coincide with the natural-number powers used here). -/
noncomputable def deltaE2000 (lab1 lab2 : LAB) : ℝ :=
  let rad := Real.pi / 180
  let deg := 180 / Real.pi
  let L1 := lab1.l
  let a1 := lab1.a
  let b1 := lab1.b
  let L2 := lab2.l
  let a2 := lab2.a
  let b2 := lab2.b
  let C1 := Real.sqrt (a1 * a1 + b1 * b1)
  let C2 := Real.sqrt (a2 * a2 + b2 * b2)
  let Cab := (C1 + C2) / 2
  let G := 0.5 * (1 - Real.sqrt (Cab ^ (7 : ℕ) / (Cab ^ (7 : ℕ) + (25 : ℝ) ^ (7 : ℕ))))
  let a1p := (1 + G) * a1
  let a2p := (1 + G) * a2
  let C1p := Real.sqrt (a1p * a1p + b1 * b1)
  let C2p := Real.sqrt (a2p * a2p + b2 * b2)
  let h1p0 := jsAtan2 b1 a1p * deg
  let h1p := if h1p0 < 0 then h1p0 + 360 else h1p0
  let h2p0 := jsAtan2 b2 a2p * deg
  let h2p := if h2p0 < 0 then h2p0 + 360 else h2p0
  let dLp := L2 - L1
  let dCp := C2p - C1p
  let dhp :=
    if C1p * C2p = 0 then 0
    else
      let d := h2p - h1p
      if d > 180 then d - 360 else if d < -180 then d + 360 else d
  let dHp := 2 * Real.sqrt (C1p * C2p) * Real.sin ((dhp / 2) * rad)
  let Lp := (L1 + L2) / 2
  let Cp := (C1p + C2p) / 2
  let hp :=
    if C1p * C2p = 0 then h1p + h2p
    else
      let m := (h1p + h2p) / 2
      if |h1p - h2p| > 180 then (if h1p + h2p < 360 then m + 180 else m - 180) else m
  let T := 1
    - 0.17 * Real.cos ((hp - 30) * rad)
    + 0.24 * Real.cos (2 * hp * rad)
    + 0.32 * Real.cos ((3 * hp + 6) * rad)
    - 0.20 * Real.cos ((4 * hp - 63) * rad)
  let dTheta := 30 * Real.exp (-(((hp - 275) / 25) ^ (2 : ℕ)))
  let RC := 2 * Real.sqrt (Cp ^ (7 : ℕ) / (Cp ^ (7 : ℕ) + (25 : ℝ) ^ (7 : ℕ)))
  let SL := 1 + (0.015 * (Lp - 50) ^ (2 : ℕ)) / Real.sqrt (20 + (Lp - 50) ^ (2 : ℕ))
  let SC := 1 + 0.045 * Cp
  let SH := 1 + 0.015 * Cp * T
  let RT := -Real.sin (2 * dTheta * rad) * RC
  Real.sqrt ((dLp / SL) ^ (2 : ℕ) + (dCp / SC) ^ (2 : ℕ) + (dHp / SH) ^ (2 : ℕ)
    + RT * (dCp / SC) * (dHp / SH))

/-! ## delta-e.js — `deduplicateColors` -/

/-- Rank used by `mergeConfidence` / `deduplicateColors`
(`{high: 3, medium: 2, low: 1}`, anything else `|| 0`). -/
def confidenceOrder (c : String) : ℕ :=
  if c = "high" then 3 else if c = "medium" then 2 else if c = "low" then 1 else 0

/-- The record type flowing through `deduplicateColors`
(`{hex, count?, sources?, confidence?, ...}`); counts are the occurrence
tallies built by the extractors, hence `ℕ`. -/
structure ColorRec where
  hex : List Char
  count : Option ℕ
  sources : Option (List (List Char))
  confidence : Option String
deriving DecidableEq

/-- `x.count || 1` (a missing or zero count acts as 1). -/
def cntVal (c : ColorRec) : ℕ :=
  match c.count with
  | some n => if n = 0 then 1 else n
  | none => 1

/-- `[...new Set([...xs, ...ys])]`: concatenation keeping only the first
occurrence of each element. -/
def dedupSeen (seen : List (List Char)) : List (List Char) → List (List Char)
  | [] => []
  | x :: xs => if x ∈ seen then dedupSeen seen xs else x :: dedupSeen (x :: seen) xs

/-- The in-place merge of `deduplicateColors`: add the counts, union the
`sources` when both are present (JS arrays are always truthy), and keep the
higher confidence when both are present and non-empty. -/
def mergeRecs (existing color : ColorRec) : ColorRec :=
  let e1 := { existing with count := some (cntVal existing + cntVal color) }
  let e2 :=
    match color.sources, existing.sources with
    | some cs, some es => { e1 with sources := some (dedupSeen [] (es ++ cs)) }
    | _, _ => e1
  match color.confidence, existing.confidence with
  | some cc, some ec =>
    if cc ≠ "" ∧ ec ≠ "" ∧ confidenceOrder cc > confidenceOrder ec then
      { e2 with confidence := some cc }
    else e2
  | _, _ => e2

/-- LAB value of an `RGB` record; `none` when a channel is `NaN` (the JS code
then produces a `NaN` LAB, and every comparison on it is false). -/
noncomputable def labOfRGB (c : RGB) : Option LAB :=
  match c.r, c.g, c.b with
  | some r, some g, some b => some (rgbToLab r g b)
  | _, _, _ => none

/-- LAB value of a hex string, through `parseColor`. -/
noncomputable def labOfHex (h : List Char) : Option LAB :=
  (parseColor h).bind labOfRGB

/-- LAB value of a cluster entry, through `parseColor` on its hex. -/
noncomputable def recLab (c : ColorRec) : Option LAB :=
  labOfHex c.hex

/-- The merge test of the inner loop: `deltaE2000(lab, existingLab) <
threshold`.  It is `False` when the existing hex does not parse (the loop
`continue`s) and when either LAB is `NaN` (a NaN comparison is false). -/
def simTo (t : ℝ) (candLab : Option LAB) (e : ColorRec) : Prop :=
  ∃ l1 l2, candLab = some l1 ∧ recLab e = some l2 ∧ deltaE2000 l1 l2 < t

/-- The merge test is decided classically (the embedding never needs to
compute a real-number comparison). -/
noncomputable instance decSimTo (t : ℝ) (candLab : Option LAB) (e : ColorRec) :
    Decidable (simTo t candLab e) := Classical.propDecidable _

/-- Scan the accepted clusters in order; merge the incoming color into the
first similar one, returning `none` when no cluster is similar. -/
noncomputable def tryMergeInto (t : ℝ) (candLab : Option LAB) (c : ColorRec) :
    List ColorRec → Option (List ColorRec)
  | [] => none
  | e :: es =>
    if simTo t candLab e then some (mergeRecs e c :: es)
    else (tryMergeInto t candLab c es).map (fun l => e :: l)

/-- One iteration of the outer loop of `deduplicateColors`: skip falsy or
unparsable hexes, otherwise merge into the first similar accepted cluster or
append a copy as a new cluster. -/
noncomputable def dedupStep (t : ℝ) (acc : List ColorRec) (c : ColorRec) : List ColorRec :=
  if c.hex = [] then acc
  else
    match parseColor c.hex with
    | none => acc
    | some rgb =>
      match tryMergeInto t (labOfRGB rgb) c acc with
      | some acc' => acc'
      | none => acc ++ [c]

/-- `deduplicateColors(colors, threshold)` of delta-e.js. -/
noncomputable def deduplicateColors (colors : List ColorRec) (t : ℝ) : List ColorRec :=
  colors.foldl (dedupStep t) []

/-! ## colors.js — `formatColorToken` -/

/-- LCH of an `RGB` record (`none` = `NaN` channels). -/
noncomputable def lchOfRGB (c : RGB) : Option LCH :=
  match c.r, c.g, c.b with
  | some r, some g, some b => some (rgbToLch r g b)
  | _, _, _ => none

noncomputable def oklchOfRGB (c : RGB) : Option LCH :=
  match c.r, c.g, c.b with
  | some r, some g, some b => some (rgbToOklch r g b)
  | _, _, _ => none

/-- A `ColorToken`.  The `lch`/`oklch` fields keep the numeric LCH values
(the source renders them with `toFixed`, a decimal rendering of binary
doubles that no claim depends on). -/
structure ColorToken where
  hex : List Char
  rgb : Option (List Char)
  lch : Option LCH
  oklch : Option LCH
  usage : List Char
  confidence : String

/-- `formatColorToken(hex, confidence, usage)` of colors.js: `null` when the
hex does not parse, otherwise a token whose `hex` field is the *input*
string uppercased. -/
noncomputable def formatColorToken (hex : List Char) (confidence : String)
    (usage : List Char) : Option ColorToken :=
  match parseColor hex with
  | none => none
  | some c =>
    some { hex := jsToUpper hex
           rgb := formatRgb (some c)
           lch := lchOfRGB c
           oklch := oklchOfRGB c
           usage := usage
           confidence := confidence }

/-! ## confidence.js -/

/-- `CONFIDENCE_THRESHOLDS` of confidence.js. -/
def THRESHOLD_HIGH : ℤ := 20

def THRESHOLD_MEDIUM : ℤ := 5

/-- `scoreToConfidence(score)` of confidence.js. -/
def scoreToConfidence (score : ℤ) : String :=
  if score > THRESHOLD_HIGH then "high"
  else if score > THRESHOLD_MEDIUM then "medium"
  else "low"

/-- `countToConfidence(count, {highThreshold, mediumThreshold})` of
confidence.js. -/
def countToConfidence (count highThreshold mediumThreshold : ℕ) : String :=
  if count ≥ highThreshold then "high"
  else if count ≥ mediumThreshold then "medium"
  else "low"

/-- `countToConfidence` with its default thresholds (high 10, medium 3). -/
def countToConfidenceD (count : ℕ) : String := countToConfidence count 10 3

/-- `mergeConfidence(conf1, conf2)` of confidence.js. -/
def mergeConfidence (conf1 conf2 : String) : String :=
  if confidenceOrder conf1 ≥ confidenceOrder conf2 then conf1 else conf2

/-! ## spacing.js -/

/-- One entry of the frequency histogram built by `processSpacing`
(rounded pixel value and occurrence count). -/
structure SpacingEntry where
  value : ℤ
  count : ℕ
deriving DecidableEq

/-- Insert one rounded value into the histogram, keeping keys in ascending
order (JS objects enumerate integer-like keys in ascending numeric order, so
`Object.entries(counts)` yields exactly this list). -/
def histInsert (v : ℤ) : List SpacingEntry → List SpacingEntry
  | [] => [⟨v, 1⟩]
  | e :: es =>
    if v < e.value then ⟨v, 1⟩ :: e :: es
    else if v = e.value then ⟨e.value, e.count + 1⟩ :: es
    else e :: histInsert v es

/-- The `counts` histogram of `processSpacing`, as `Object.entries` lists it. -/
def buildCounts (values : List ℚ) : List SpacingEntry :=
  values.foldl (fun acc q => histInsert (jsRound q) acc) []

/-- Stable insertion for the descending-count sort
(`.sort((a, b) => b[1] - a[1])`; JS `Array.prototype.sort` is stable, so an
element is placed before the first element whose count is not larger). -/
def insertByCountDesc (x : SpacingEntry) : List SpacingEntry → List SpacingEntry
  | [] => [x]
  | y :: ys => if y.count ≤ x.count then x :: y :: ys else y :: insertByCountDesc x ys

def sortByCountDesc (l : List SpacingEntry) : List SpacingEntry :=
  l.foldr insertByCountDesc []

/-- Result record of `detectSpacingScale`. -/
structure DetectedScale where
  unit : String
  baseValue : ℤ
  values : List SpacingEntry
  type : String
deriving DecidableEq

/-- `detectSpacingScale(sorted)` of spacing.js.  The float comparisons
`ratio > 0.7` / `ratio > 0.6` are modelled as exact rational comparisons, which
agree with the double-precision ones for all realistic list lengths. -/
def detectSpacingScale (sorted : List SpacingEntry) : DetectedScale :=
  let fourPxRatio : ℚ :=
    ((sorted.filter (fun s => s.value % 4 = 0)).length : ℚ) / (sorted.length : ℚ)
  let eightPxRatio : ℚ :=
    ((sorted.filter (fun s => s.value % 8 = 0)).length : ℚ) / (sorted.length : ℚ)
  let unit := if eightPxRatio > 7/10 then "8px" else "4px"
  let baseValue : ℤ := if eightPxRatio > 7/10 then 8 else 4
  let scaleValues :=
    ([1, 2, 3, 4, 6, 8, 12, 16] : List ℤ).filterMap (fun mult =>
      match sorted.find? (fun s => s.value = baseValue * mult) with
      | some found =>
        if found.count ≥ 2 then some (⟨baseValue * mult, found.count⟩ : SpacingEntry)
        else none
      | none => none)
  { unit := unit
    baseValue := baseValue
    values := scaleValues
    type :=
      if fourPxRatio > 3/5 then "4px grid"
      else if eightPxRatio > 3/5 then "8px grid" else "custom" }

/-- A `{value, confidence}` token as emitted by the spacing extractor. -/
structure SpacingTok where
  value : List Char
  confidence : String
deriving DecidableEq

/-- The named scale produced by `mapToScaleNames` (`2xl`/`3xl` are spelled
`x2l`/`x3l` because Lean identifiers cannot start with a digit). -/
structure NamedScale where
  xs : Option SpacingTok
  sm : Option SpacingTok
  md : Option SpacingTok
  lg : Option SpacingTok
  xl : Option SpacingTok
  x2l : Option SpacingTok
  x3l : Option SpacingTok
deriving DecidableEq

/-- One slot of `mapToScaleNames`: find the first detected scale value within
`baseValue / 2` of the expected value. -/
def scaleSlot (values : List SpacingEntry) (baseValue expected : ℤ) : Option SpacingTok :=
  match values.find? (fun v => |(v.value : ℚ) - (expected : ℚ)| ≤ (baseValue : ℚ) / 2) with
  | some found => some ⟨intDecStr found.value ++ ("px".data), countToConfidenceD found.count⟩
  | none => none

/-- `mapToScaleNames(scale)` of spacing.js. -/
def mapToScaleNames (scale : DetectedScale) : NamedScale :=
  let b := scale.baseValue
  { xs := scaleSlot scale.values b b
    sm := scaleSlot scale.values b (b * 2)
    md := scaleSlot scale.values b (b * 4)
    lg := scaleSlot scale.values b (b * 6)
    xl := scaleSlot scale.values b (b * 8)
    x2l := scaleSlot scale.values b (b * 12)
    x3l := scaleSlot scale.values b (b * 16) }

/-- One sampled padding record (`{top, right, bottom, left}`). -/
structure PaddingRec where
  top : ℚ
  right : ℚ
  bottom : ℚ
  left : ℚ
deriving DecidableEq

/-- The raw data handed from the page evaluation to `processSpacing`. -/
structure RawSpacing where
  values : List ℚ
  buttonPads : List PaddingRec
  inputPads : List PaddingRec
  cardPads : List PaddingRec
  modalPads : List PaddingRec
deriving DecidableEq

/-- Entry of the `(vert, horiz)` tally of `getMostCommonPadding`
(string-keyed JS object: insertion order preserved). -/
structure PadKeyCount where
  vert : ℤ
  horiz : ℤ
  count : ℕ
deriving DecidableEq

def padTallyInsert (v h : ℤ) : List PadKeyCount → List PadKeyCount
  | [] => [⟨v, h, 1⟩]
  | e :: es =>
    if e.vert = v ∧ e.horiz = h then ⟨v, h, e.count + 1⟩ :: es
    else e :: padTallyInsert v h es

def insertPadByCountDesc (x : PadKeyCount) : List PadKeyCount → List PadKeyCount
  | [] => [x]
  | y :: ys => if y.count ≤ x.count then x :: y :: ys else y :: insertPadByCountDesc x ys

/-- `getMostCommonPadding(paddings)` of spacing.js. -/
def getMostCommonPadding (paddings : List PaddingRec) : Option PaddingRec :=
  match paddings with
  | [] => none
  | _ =>
    let tally := paddings.foldl
      (fun acc p => padTallyInsert (jsRound p.top) (jsRound p.left) acc) []
    match tally.foldr insertPadByCountDesc [] with
    | [] => none
    | best :: _ =>
      some ⟨(best.vert : ℚ), (best.horiz : ℚ), (best.vert : ℚ), (best.horiz : ℚ)⟩

/-- `formatPadding(padding)` of spacing.js.  The components reaching it are
integer-valued, so `${n}px` renders with `intDecStr`. -/
def formatPadding (p : PaddingRec) : List Char :=
  if p.top = p.right ∧ p.right = p.bottom ∧ p.bottom = p.left then
    intDecStr (jsRound p.top) ++ ("px".data)
  else if p.top = p.bottom ∧ p.left = p.right then
    intDecStr (jsRound p.top) ++ ("px ".data) ++ intDecStr (jsRound p.right) ++ ("px".data)
  else
    intDecStr (jsRound p.top) ++ ("px ".data) ++ intDecStr (jsRound p.right) ++ ("px ".data)
      ++ intDecStr (jsRound p.bottom) ++ ("px ".data) ++ intDecStr (jsRound p.left) ++ ("px".data)

/-- Per-component padding entry of the processed spacing result. -/
def componentPad (paddings : List PaddingRec) : Option SpacingTok :=
  match getMostCommonPadding paddings with
  | some mc => some ⟨formatPadding mc, countToConfidenceD paddings.length⟩
  | none => none

/-- The full record returned by `processSpacing`. -/
structure ProcessedSpacing where
  unit : String
  scale : NamedScale
  buttonPadding : Option SpacingTok
  inputPadding : Option SpacingTok
  cardPadding : Option SpacingTok
  modalPadding : Option SpacingTok
  pageMargin : Option SpacingTok
  sectionGap : Option SpacingTok
deriving DecidableEq

/-- `processSpacing(raw)` of spacing.js. -/
def processSpacing (raw : RawSpacing) : ProcessedSpacing :=
  let sorted := sortByCountDesc (buildCounts raw.values)
  let scale := detectSpacingScale sorted
  let mappedScale := mapToScaleNames scale
  let largeValues := sorted.filter (fun s => 16 ≤ s.value ∧ s.value ≤ 48)
  let pageMargin := largeValues.find? (fun s => s.count ≥ 3)
  let sectionGap := largeValues.find? (fun s => 32 ≤ s.value ∧ s.count ≥ 2)
  { unit := scale.unit
    scale := mappedScale
    buttonPadding := componentPad raw.buttonPads
    inputPadding := componentPad raw.inputPads
    cardPadding := componentPad raw.cardPads
    modalPadding := componentPad raw.modalPads
    pageMargin := pageMargin.map (fun s =>
      ⟨intDecStr s.value ++ ("px".data), countToConfidenceD s.count⟩)
    sectionGap := sectionGap.map (fun s =>
      ⟨intDecStr s.value ++ ("px".data), countToConfidenceD s.count⟩) }

/-- A `RawSpacing` with only plain pixel samples (used by the scenario
claims, which feed the extractor a bare list of values). -/
def samplesOnly (values : List ℚ) : RawSpacing :=
  ⟨values, [], [], [], []⟩

/-! ## borders.js — radii processing -/

/-- One raw radius sample collected in the page evaluation. -/
structure RawRadius where
  value : List Char
  elementType : String
  fullValue : List Char
deriving DecidableEq

/-- `normalizeRadius(value)` of borders.js.  (`parseFloat(value) >= 9999` is
false for `NaN`, which `(jsParseFloat value).getD 0` reproduces, since a
parse failure yields 0.) -/
def normalizeRadius (value : List Char) : Option (List Char) :=
  if value = [] ∨ value = ("0px".data) ∨ value = ("0".data) then none
  else if ('%' ∈ value) ∨ value = ("9999px".data) ∨ value = ("999px".data)
      ∨ 9999 ≤ (jsParseFloat value).getD 0 then
    some ("9999px".data)
  else
    match jsParseFloat value with
    | none => none
    | some px => if px ≤ 0 then none else some (intDecStr (jsRound px) ++ ("px".data))

/-- `parseRadiusValue(value)` of borders.js (`parseFloat(value) || 0`). -/
def parseRadiusValue (value : List Char) : ℚ :=
  if value = ("9999px".data) ∨ '%' ∈ value then 9999
  else (jsParseFloat value).getD 0

/-- One group of `processRadii` (`{value, count, elements}`; `elements` is a
JS `Set`, i.e. insertion-ordered and duplicate-free). -/
structure RadiusGroup where
  value : List Char
  count : ℕ
  elements : List String
deriving DecidableEq

def addElem (es : List String) (e : String) : List String :=
  if e ∈ es then es else es ++ [e]

/-- Add one normalized sample to the (insertion-ordered) group map. -/
def radGroupInsert (v : List Char) (et : String) : List RadiusGroup → List RadiusGroup
  | [] => [⟨v, 1, [et]⟩]
  | g :: gs =>
    if g.value = v then ⟨g.value, g.count + 1, addElem g.elements et⟩ :: gs
    else g :: radGroupInsert v et gs

/-- One iteration of the grouping loop of `processRadii` (skip values that
normalize to `null`). -/
def radGroupStep (gs : List RadiusGroup) (item : RawRadius) : List RadiusGroup :=
  match normalizeRadius item.value with
  | none => gs
  | some v => radGroupInsert v item.elementType gs

/-- The grouping loop of `processRadii`. -/
def buildRadiusGroups (raw : List RawRadius) : List RadiusGroup :=
  raw.foldl radGroupStep []

/-- One sorted entry of `processRadii` (group plus its count confidence). -/
structure RadiusEntry where
  value : List Char
  count : ℕ
  elements : List String
  confidence : String
deriving DecidableEq

/-- Stable ascending insertion for `.sort((a, b) => aNum - bNum)`. -/
def insertRadAsc (x : RadiusEntry) : List RadiusEntry → List RadiusEntry
  | [] => [x]
  | y :: ys =>
    if parseRadiusValue x.value ≤ parseRadiusValue y.value then x :: y :: ys
    else y :: insertRadAsc x ys

/-- The grouped, confidence-annotated, ascending-sorted radius list. -/
def sortedRadiusEntries (raw : List RawRadius) : List RadiusEntry :=
  (((buildRadiusGroups raw).map
    (fun g => (⟨g.value, g.count, g.elements, countToConfidenceD g.count⟩ : RadiusEntry)))).foldr
    insertRadAsc []

/-- A `{value, usage?, confidence}` radius token. -/
structure RadiusTok where
  value : List Char
  usage : Option (List Char)
  confidence : String
deriving DecidableEq

/-- The scale record built by `mapRadiiToScale` (the JS key `none` is spelled
`noneRad`, it clashes with `Option.none` in Lean). -/
structure RadiiScale where
  noneRad : RadiusTok
  sm : Option RadiusTok
  md : Option RadiusTok
  lg : Option RadiusTok
  xl : Option RadiusTok
  full : Option RadiusTok
deriving DecidableEq

/-- `elements.join(', ')`. -/
def joinComma (es : List String) : List Char :=
  (String.intercalate ", " es).data

/-- The token stored by the `sm`/`md`/`lg`/`xl` branches. -/
def bucketTok (item : RadiusEntry) : RadiusTok :=
  ⟨item.value,
    if item.elements = [] then none else some (joinComma item.elements),
    item.confidence⟩

/-- The token stored by the `full` branch (`value` is the literal `'9999px'`,
`usage` is always present). -/
def fullTok (item : RadiusEntry) : RadiusTok :=
  ⟨"9999px".data, some (joinComma item.elements), item.confidence⟩

/-- One iteration of the `mapRadiiToScale` loop: bucket the item by its
parsed pixel value, keeping only the first entry per bucket.  A `NaN` pixel
value satisfies none of the numeric comparisons, so only the `%` test can
fire then. -/
def radScaleStep (r : RadiiScale) (item : RadiusEntry) : RadiiScale :=
  match jsParseFloat item.value with
  | none =>
    if '%' ∈ item.value then
      (if r.full = none then { r with full := some (fullTok item) } else r)
    else r
  | some px =>
    if 9999 ≤ px ∨ '%' ∈ item.value then
      (if r.full = none then { r with full := some (fullTok item) } else r)
    else if px ≤ 4 then
      (if r.sm = none then { r with sm := some (bucketTok item) } else r)
    else if px ≤ 8 then
      (if r.md = none then { r with md := some (bucketTok item) } else r)
    else if px ≤ 16 then
      (if r.lg = none then { r with lg := some (bucketTok item) } else r)
    else if px < 9999 then
      (if r.xl = none then { r with xl := some (bucketTok item) } else r)
    else r

/-- The initial scale record (`none` is always present: `0px`, high). -/
def radScaleInit : RadiiScale :=
  { noneRad := ⟨"0px".data, none, "high"⟩
    sm := none, md := none, lg := none, xl := none, full := none }

/-- `mapRadiiToScale(sorted)` of borders.js. -/
def mapRadiiToScale (sorted : List RadiusEntry) : RadiiScale :=
  sorted.foldl radScaleStep radScaleInit

/-- `processRadii(rawRadii)` of borders.js. -/
def processRadii (raw : List RawRadius) : RadiiScale :=
  mapRadiiToScale (sortedRadiusEntries raw)

/-- The multiset of normalized radius values of a raw sample list. -/
def normVals (raw : List RawRadius) : List (List Char) :=
  raw.filterMap (fun i => normalizeRadius i.value)

/-- Parsed pixel value of a (normalized) radius string. -/
def pxOf (v : List Char) : ℚ := (jsParseFloat v).getD 0

/-! ## extractors/index.js — the orchestrator -/

/-- The result of the borders extractor before destructuring. -/
structure BordersOut (ρ β : Type) where
  radii : ρ
  borders : β

/-- The result of the frameworks extractor before destructuring. -/
structure FrameworksOut (φ ι κ : Type) where
  frameworks : φ
  iconSystems : ι
  cssMethodology : κ

/-- Property access on a settled extractor result: reading a field off the
`{error}` stub yields `undefined` (`none`), and the error message is lost. -/
def fieldOr {ε α σ : Type} (e : Except ε α) (f : α → σ) : Option σ :=
  match e with
  | .ok o => some (f o)
  | .error _ => none

/-- The aggregate assembled by `runAllExtractors`.  The six extractors whose
results are stored whole keep their `{error: message}` stub
(`Except.error m`); the borders and frameworks results are destructured into
sub-fields, which are `undefined` (`none`) when that extractor failed. -/
structure ExtractionResult (γc γt γs ρ β γsh γbp γcomp φ ι κ : Type) where
  colors : Except String γc
  typography : Except String γt
  spacing : Except String γs
  radii : Option ρ
  borders : Option β
  shadows : Except String γsh
  breakpoints : Except String γbp
  components : Except String γcomp
  frameworks : Option φ
  iconSystems : Option ι
  cssMethodology : Option κ
  extractionTimeMs : ℕ

/-- `runAllExtractors(page, options)` of extractors/index.js.  Every
extractor runs against the same page snapshot; each settles either with its
result or, through its `.catch`, with the `{error: message}` stub (modelled
as `Except String`).  The aggregate stores the six plain results whole and
reads `.radii`/`.borders` (resp. the three framework fields) off the settled
borders (resp. frameworks) value.  The wall-clock timing metric is passed in
as `elapsedMs`.  The model is a total function: no exception crosses the
extractor→orchestrator boundary. -/
def runAllExtractors {Page γc γt γs ρ β γsh γbp γcomp φ ι κ : Type}
    (page : Page)
    (extractColors : Page → Except String γc)
    (extractTypography : Page → Except String γt)
    (extractSpacing : Page → Except String γs)
    (extractBorders : Page → Except String (BordersOut ρ β))
    (extractShadows : Page → Except String γsh)
    (extractComponents : Page → Except String γcomp)
    (detectFrameworks : Page → Except String (FrameworksOut φ ι κ))
    (extractBreakpoints : Page → Except String γbp)
    (elapsedMs : ℕ) : ExtractionResult γc γt γs ρ β γsh γbp γcomp φ ι κ :=
  let colors := extractColors page
  let typography := extractTypography page
  let spacing := extractSpacing page
  let bordersAndRadii := extractBorders page
  let shadows := extractShadows page
  let components := extractComponents page
  let frameworksAndIcons := detectFrameworks page
  let breakpoints := extractBreakpoints page
  { colors := colors
    typography := typography
    spacing := spacing
    radii := fieldOr bordersAndRadii BordersOut.radii
    borders := fieldOr bordersAndRadii BordersOut.borders
    shadows := shadows
    breakpoints := breakpoints
    components := components
    frameworks := fieldOr frameworksAndIcons FrameworksOut.frameworks
    iconSystems := fieldOr frameworksAndIcons FrameworksOut.iconSystems
    cssMethodology := fieldOr frameworksAndIcons FrameworksOut.cssMethodology
    extractionTimeMs := elapsedMs }

/-! ## Supporting lemmas for the spacing claims -/

lemma perm_insertByCountDesc (x : SpacingEntry) (l : List SpacingEntry) :
    (insertByCountDesc x l).Perm (x :: l) := by
  induction l with
  | nil => simp [insertByCountDesc]
  | cons y ys ih =>
    simp only [insertByCountDesc]
    split
    · exact List.Perm.refl _
    · exact (ih.cons y).trans (List.Perm.swap x y ys)

lemma perm_sortByCountDesc (l : List SpacingEntry) : (sortByCountDesc l).Perm l := by
  induction l with
  | nil => simp [sortByCountDesc]
  | cons x xs ih =>
    simp only [sortByCountDesc, List.foldr] at *
    exact (perm_insertByCountDesc x _).trans (ih.cons x)

lemma ratio_gt_iff (a b : ℕ) (hab : a ≤ b) :
    ((a : ℚ) / (b : ℚ) > 7/10) ↔ 7 * b < 10 * a := by
  rcases Nat.eq_zero_or_pos b with hb | hb
  · subst hb
    interval_cases a
    norm_num
  · rw [gt_iff_lt, lt_div_iff₀ (by exact_mod_cast hb)]
    constructor
    · intro h
      have h' : (7 : ℚ) * b < 10 * a := by linarith
      exact_mod_cast h'
    · intro h
      have h' : (7 : ℚ) * b < 10 * a := by exact_mod_cast h
      linarith

/-- `detectSpacingScale` reports an 8px base exactly when strictly more than
70 % of the distinct rounded values are multiples of 8. -/
lemma detect_unit_iff (sorted : List SpacingEntry) :
    (detectSpacingScale sorted).unit = "8px" ↔
      7 * sorted.length < 10 * (sorted.filter (fun s => s.value % 8 = 0)).length := by
  have hle : (sorted.filter (fun s => s.value % 8 = 0)).length ≤ sorted.length :=
    List.length_filter_le _ _
  show (if ((sorted.filter (fun s => s.value % 8 = 0)).length : ℚ) / (sorted.length : ℚ)
      > 7/10 then "8px" else "4px") = "8px" ↔ _
  simp only [ratio_gt_iff _ _ hle]
  constructor
  · intro h
    by_contra hc
    rw [if_neg hc] at h
    exact absurd h (by decide)
  · intro h
    rw [if_pos h]

/-! ## Claim C10: the radii scale mapping -/

/-- The branch condition of the `full` bucket of `radScaleStep`, as a Boolean
predicate (false on a `NaN` parse unless a `%` is present). -/
def fullB (i : RadiusEntry) : Bool :=
  ((jsParseFloat i.value).any fun px => decide (9999 ≤ px)) || decide ('%' ∈ i.value)

/-- The branch condition of the `sm` bucket of `radScaleStep`. -/
def smB (i : RadiusEntry) : Bool :=
  (jsParseFloat i.value).any fun px =>
    !(decide (9999 ≤ px) || decide ('%' ∈ i.value)) && decide (px ≤ 4)

/-- The branch condition of the `md` bucket of `radScaleStep`. -/
def mdB (i : RadiusEntry) : Bool :=
  (jsParseFloat i.value).any fun px =>
    !(decide (9999 ≤ px) || decide ('%' ∈ i.value)) && !(decide (px ≤ 4))
      && decide (px ≤ 8)

/-- The branch condition of the `lg` bucket of `radScaleStep`. -/
def lgB (i : RadiusEntry) : Bool :=
  (jsParseFloat i.value).any fun px =>
    !(decide (9999 ≤ px) || decide ('%' ∈ i.value)) && !(decide (px ≤ 4))
      && !(decide (px ≤ 8)) && decide (px ≤ 16)

/-- The branch condition of the `xl` bucket of `radScaleStep`. -/
def xlB (i : RadiusEntry) : Bool :=
  (jsParseFloat i.value).any fun px =>
    !(decide (9999 ≤ px) || decide ('%' ∈ i.value)) && !(decide (px ≤ 4))
      && !(decide (px ≤ 8)) && !(decide (px ≤ 16)) && decide (px < 9999)

lemma step_noneRad (r : RadiiScale) (i : RadiusEntry) :
    (radScaleStep r i).noneRad = r.noneRad := by
  unfold radScaleStep
  rcases h : jsParseFloat i.value with _ | px <;> dsimp only <;> split_ifs <;> rfl

lemma step_sm (r : RadiiScale) (i : RadiusEntry) :
    (radScaleStep r i).sm
      = if r.sm = none then (if smB i then some (bucketTok i) else r.sm) else r.sm := by
  unfold radScaleStep smB
  rcases h : jsParseFloat i.value with _ | px <;> dsimp only <;> split_ifs <;>
    simp_all <;> linarith

lemma step_md (r : RadiiScale) (i : RadiusEntry) :
    (radScaleStep r i).md
      = if r.md = none then (if mdB i then some (bucketTok i) else r.md) else r.md := by
  unfold radScaleStep mdB
  rcases h : jsParseFloat i.value with _ | px <;> dsimp only <;> split_ifs <;>
    simp_all <;> linarith

lemma step_lg (r : RadiiScale) (i : RadiusEntry) :
    (radScaleStep r i).lg
      = if r.lg = none then (if lgB i then some (bucketTok i) else r.lg) else r.lg := by
  unfold radScaleStep lgB
  rcases h : jsParseFloat i.value with _ | px <;> dsimp only <;> split_ifs <;>
    simp_all <;> linarith

lemma step_xl (r : RadiiScale) (i : RadiusEntry) :
    (radScaleStep r i).xl
      = if r.xl = none then (if xlB i then some (bucketTok i) else r.xl) else r.xl := by
  unfold radScaleStep xlB
  rcases h : jsParseFloat i.value with _ | px <;> dsimp only <;> split_ifs <;>
    simp_all <;> linarith

lemma step_full (r : RadiiScale) (i : RadiusEntry) :
    (radScaleStep r i).full
      = if r.full = none then (if fullB i then some (fullTok i) else r.full) else r.full := by
  unfold radScaleStep fullB
  rcases h : jsParseFloat i.value with _ | px <;> dsimp only <;> split_ifs <;>
    simp_all <;> linarith

lemma foldScale_noneRad (L : List RadiusEntry) (r : RadiiScale) :
    (L.foldl radScaleStep r).noneRad = r.noneRad := by
  induction L generalizing r with
  | nil => rfl
  | cons i L ih => rw [List.foldl_cons, ih, step_noneRad]

/-- Generic fold characterization: a bucket whose step behaviour is
"first-match wins" equals the original entry or the first matching item. -/
lemma foldScale_first (get : RadiiScale → Option RadiusTok) (pb : RadiusEntry → Bool)
    (mk : RadiusEntry → RadiusTok)
    (hstep : ∀ r i, get (radScaleStep r i)
      = if get r = none then (if pb i then some (mk i) else get r) else get r) :
    ∀ (L : List RadiusEntry) (r : RadiiScale),
      get (L.foldl radScaleStep r)
        = match get r with
          | some tok => some tok
          | none => (L.find? pb).map mk := by
  intro L
  induction L with
  | nil =>
    intro r
    rcases hr : get r with _ | tok <;> simp [hr]
  | cons i L ih =>
    intro r
    rw [List.foldl_cons, ih]
    rcases hr : get r with _ | tok
    · by_cases hb : pb i
      · have hs : get (radScaleStep r i) = some (mk i) := by
          rw [hstep, if_pos hr, if_pos hb]
        rw [hs, List.find?_cons_of_pos _ hb]
        rfl
      · have hs : get (radScaleStep r i) = none := by
          rw [hstep, if_pos hr, if_neg hb, hr]
        rw [hs, List.find?_cons_of_neg _ hb]
    · have hs : get (radScaleStep r i) = some tok := by
        rw [hstep, if_neg (by rw [hr]; exact Option.some_ne_none tok)]
        exact hr
      rw [hs]

/-- Sort key of the radius sort comparator. -/
def entryKey (e : RadiusEntry) : ℚ := parseRadiusValue e.value

lemma perm_insertRadAsc (x : RadiusEntry) (l : List RadiusEntry) :
    (insertRadAsc x l).Perm (x :: l) := by
  induction l with
  | nil => simp [insertRadAsc]
  | cons y ys ih =>
    simp only [insertRadAsc]
    split
    · exact List.Perm.refl _
    · exact (ih.cons y).trans (List.Perm.swap x y ys)

lemma perm_radSort (l : List RadiusEntry) : (l.foldr insertRadAsc []).Perm l := by
  induction l with
  | nil => simp
  | cons x xs ih =>
    simp only [List.foldr] at *
    exact (perm_insertRadAsc x _).trans (ih.cons x)

lemma pairwise_insertRadAsc (x : RadiusEntry) (l : List RadiusEntry)
    (h : l.Pairwise (fun a b => entryKey a ≤ entryKey b)) :
    (insertRadAsc x l).Pairwise (fun a b => entryKey a ≤ entryKey b) := by
  induction l with
  | nil => simp [insertRadAsc]
  | cons y ys ih =>
    rw [List.pairwise_cons] at h
    simp only [insertRadAsc]
    split
    · refine List.Pairwise.cons ?_ (List.Pairwise.cons h.1 h.2)
      intro b hb
      rcases List.mem_cons.mp hb with rfl | hb
      · assumption
      · exact le_trans (by assumption) (h.1 b hb)
    · refine List.Pairwise.cons ?_ (ih h.2)
      intro b hb
      rcases List.mem_cons.mp ((perm_insertRadAsc x ys).mem_iff.mp hb) with rfl | hb'
      · exact (not_le.mp (by assumption)).le
      · exact h.1 b hb'

lemma pairwise_radSort (l : List RadiusEntry) :
    (l.foldr insertRadAsc []).Pairwise (fun a b => entryKey a ≤ entryKey b) := by
  induction l with
  | nil => simp
  | cons x xs ih => exact pairwise_insertRadAsc x _ ih

/-- `radGroupInsert` either revisits an existing value (leaving the value
list unchanged) or appends the new value. -/
lemma radGroupInsert_values (v : List Char) (et : String) :
    ∀ gs : List RadiusGroup,
      (radGroupInsert v et gs).map RadiusGroup.value
        = if v ∈ gs.map RadiusGroup.value then gs.map RadiusGroup.value
          else gs.map RadiusGroup.value ++ [v] := by
  intro gs
  induction gs with
  | nil => simp [radGroupInsert]
  | cons g gs ih =>
    simp only [radGroupInsert]
    by_cases hv : g.value = v
    · rw [if_pos hv]
      simp [hv]
    · rw [if_neg hv]
      simp only [List.map_cons, ih]
      by_cases hm : v ∈ gs.map RadiusGroup.value
      · rw [if_pos hm, if_pos (List.mem_cons_of_mem _ hm)]
      · rw [if_neg hm, if_neg ?_]
        · simp
        · intro hmem
          rcases List.mem_cons.mp hmem with he | hm'
          · exact hv he.symm
          · exact hm hm'

lemma mem_buildGroups_vals :
    ∀ (raw : List RawRadius) (acc : List RadiusGroup) (g : RadiusGroup),
      g ∈ List.foldl radGroupStep acc raw →
      g.value ∈ acc.map RadiusGroup.value ∨ g.value ∈ normVals raw := by
  intro raw
  induction raw with
  | nil =>
    intro acc g hg
    exact Or.inl (List.mem_map_of_mem _ hg)
  | cons i raw ih =>
    intro acc g hg
    rw [List.foldl_cons] at hg
    rcases ih (radGroupStep acc i) g hg with hacc | hrest
    · rw [radGroupStep] at hacc
      rcases hn : normalizeRadius i.value with _ | v
      · rw [hn] at hacc
        exact Or.inl hacc
      · rw [hn, radGroupInsert_values] at hacc
        split at hacc
        · exact Or.inl hacc
        · rcases List.mem_append.mp hacc with hacc | hv
          · exact Or.inl hacc
          · refine Or.inr ?_
            rw [normVals, List.filterMap_cons, hn]
            exact List.mem_cons.mpr (Or.inl (List.mem_singleton.mp hv))
    · refine Or.inr ?_
      rw [normVals, List.filterMap_cons]
      rcases hn : normalizeRadius i.value with _ | v
      · exact hrest
      · exact List.mem_cons_of_mem _ hrest

lemma vals_mem_buildGroups :
    ∀ (raw : List RawRadius) (acc : List RadiusGroup) (v : List Char),
      (v ∈ normVals raw ∨ v ∈ acc.map RadiusGroup.value) →
      v ∈ (List.foldl radGroupStep acc raw).map RadiusGroup.value := by
  intro raw
  induction raw with
  | nil =>
    intro acc v hv
    rcases hv with hv | hv
    · simp [normVals] at hv
    · simpa using hv
  | cons i raw ih =>
    intro acc v hv
    rw [List.foldl_cons]
    have hstep : ∀ w, w ∈ acc.map RadiusGroup.value →
        w ∈ (radGroupStep acc i).map RadiusGroup.value := by
      intro w hw
      rw [radGroupStep]
      rcases hn : normalizeRadius i.value with _ | u
      · exact hw
      · rw [radGroupInsert_values]
        split
        · exact hw
        · exact List.mem_append.mpr (Or.inl hw)
    rcases hv with hv | hv
    · rw [normVals, List.filterMap_cons] at hv
      rcases hn : normalizeRadius i.value with _ | u
      · rw [hn] at hv
        exact ih _ v (Or.inl hv)
      · rw [hn] at hv
        rcases List.mem_cons.mp hv with rfl | hv
        · refine ih _ v (Or.inr ?_)
          rw [radGroupStep, hn, radGroupInsert_values]
          split
          · assumption
          · exact List.mem_append.mpr (Or.inr (List.mem_singleton.mpr rfl))
        · exact ih _ v (Or.inl hv)
    · exact ih _ v (Or.inr (hstep v hv))

/-- Every sorted entry's value is a normalized value of the input. -/
lemma sortedEntries_val_mem (raw : List RawRadius) (e : RadiusEntry)
    (he : e ∈ sortedRadiusEntries raw) : e.value ∈ normVals raw := by
  rw [sortedRadiusEntries] at he
  have := (perm_radSort _).mem_iff.mp he
  rcases List.mem_map.mp this with ⟨g, hg, rfl⟩
  rcases mem_buildGroups_vals raw [] g hg with h | h
  · simp at h
  · exact h

/-- Every normalized value of the input appears as a sorted entry. -/
lemma normVal_mem_sortedEntries (raw : List RawRadius) (v : List Char)
    (hv : v ∈ normVals raw) : ∃ e ∈ sortedRadiusEntries raw, e.value = v := by
  have := vals_mem_buildGroups raw [] v (Or.inl hv)
  rcases List.mem_map.mp this with ⟨g, hg, hgv⟩
  refine ⟨⟨g.value, g.count, g.elements, countToConfidenceD g.count⟩, ?_, hgv⟩
  rw [sortedRadiusEntries]
  refine (perm_radSort _).mem_iff.mpr ?_
  exact List.mem_map.mpr ⟨g, hg, rfl⟩

lemma sorted_sortedEntries (raw : List RawRadius) :
    (sortedRadiusEntries raw).Pairwise (fun a b => entryKey a ≤ entryKey b) :=
  pairwise_radSort _

/-- The first match of a Boolean predicate in a `≤`-sorted list is minimal
among all matches. -/
lemma find?_min_key (p : RadiusEntry → Bool) :
    ∀ (l : List RadiusEntry), l.Pairwise (fun a b => entryKey a ≤ entryKey b) →
      ∀ i, l.find? p = some i → ∀ e ∈ l, p e = true → entryKey i ≤ entryKey e := by
  intro l
  induction l with
  | nil => intro _ i h; simp at h
  | cons x l ih =>
    intro hpw i hf e he hp
    rw [List.pairwise_cons] at hpw
    by_cases hx : p x
    · rw [List.find?_cons_of_pos _ hx] at hf
      injection hf with hf
      subst hf
      rcases List.mem_cons.mp he with rfl | he
      · exact le_refl _
      · exact hpw.1 e he
    · rw [List.find?_cons_of_neg _ hx] at hf
      rcases List.mem_cons.mp he with rfl | he
      · exact absurd hp hx
      · exact ih hpw.2 i hf e he hp

/-! ### Digit-string lemmas for the radii claim -/

lemma hexDigitChar_isDigit : ∀ m, m < 10 → (hexDigitChar m).isDigit = true := by decide

lemma decDigits_all_digit (k : ℕ) : ∀ c ∈ decDigits k, c.isDigit = true := by
  induction k using Nat.strong_induction_on with
  | _ k ih =>
    rw [decDigits_eq]
    rcases Nat.lt_or_ge k 10 with h | h
    · rw [if_pos h]
      intro c hc
      rcases List.mem_singleton.mp hc with rfl
      exact hexDigitChar_isDigit k h
    · rw [if_neg (by omega)]
      intro c hc
      rcases List.mem_append.mp hc with hc | hc
      · exact ih (k / 10) (Nat.div_lt_self (by omega) (by omega)) c hc
      · rcases List.mem_singleton.mp hc with rfl
        exact hexDigitChar_isDigit _ (Nat.mod_lt _ (by omega))

lemma decDigits_ne_nil (k : ℕ) : decDigits k ≠ [] := by
  rw [decDigits_eq]
  rcases Nat.lt_or_ge k 10 with h | h
  · rw [if_pos h]
    simp
  · rw [if_neg (by omega)]
    simp

lemma digitVal_hexDigitChar : ∀ m, m < 10 → digitVal (hexDigitChar m) = m := by decide

lemma foldDec_append_one (xs : List Char) (c : Char) :
    foldDec (xs ++ [c]) = 10 * foldDec xs + digitVal c := by
  simp [foldDec, List.foldl_append]

/-- Decimal digit strings round-trip back to their number. -/
lemma foldDec_decDigits (k : ℕ) : foldDec (decDigits k) = k := by
  induction k using Nat.strong_induction_on with
  | _ k ih =>
    rw [decDigits_eq]
    rcases Nat.lt_or_ge k 10 with h | h
    · rw [if_pos h]
      have := digitVal_hexDigitChar k h
      simp [foldDec, List.foldl, digitVal] at this ⊢
      omega
    · rw [if_neg (by omega), foldDec_append_one,
        ih (k / 10) (Nat.div_lt_self (by omega) (by omega)),
        digitVal_hexDigitChar _ (Nat.mod_lt _ (by omega))]
      omega

lemma digit_ne_signs (c : Char) (h : c.isDigit = true) :
    c ≠ '-' ∧ c ≠ '+' ∧ c ≠ '.' ∧ isJsWs c = false := by
  refine ⟨?_, ?_, ?_, ?_⟩
  · intro e; subst e; exact absurd h (by decide)
  · intro e; subst e; exact absurd h (by decide)
  · intro e; subst e; exact absurd h (by decide)
  · unfold isJsWs
    apply decide_eq_false
    rintro (rfl | rfl | rfl | rfl) <;> exact absurd h (by decide)

lemma stripSign_of_digit (d : Char) (l : List Char) (h : d.isDigit = true) :
    stripSign (d :: l) = (false, d :: l) := by
  rw [stripSign, if_neg (digit_ne_signs d h).1, if_neg (digit_ne_signs d h).2.1]

lemma takeWhile_append_all (p : Char → Bool) (xs ys : List Char)
    (h : ∀ x ∈ xs, p x = true) :
    List.takeWhile p (xs ++ ys) = xs ++ List.takeWhile p ys := by
  induction xs with
  | nil => simp
  | cons x xs ih =>
    rw [List.cons_append, List.takeWhile_cons, h x (List.mem_cons_self _ _)]
    simp [ih (fun y hy => h y (List.mem_cons_of_mem _ hy))]

lemma dropWhile_append_all (p : Char → Bool) (xs ys : List Char)
    (h : ∀ x ∈ xs, p x = true) :
    List.dropWhile p (xs ++ ys) = List.dropWhile p ys := by
  induction xs with
  | nil => simp
  | cons x xs ih =>
    rw [List.cons_append, List.dropWhile_cons, h x (List.mem_cons_self _ _)]
    simp [ih (fun y hy => h y (List.mem_cons_of_mem _ hy))]

/-- `parseFloat` on a decimal digit string followed by `px` yields exactly
that number. -/
lemma parse_decPx (k : ℕ) : jsParseFloat (decDigits k ++ ("px".data)) = some (k : ℚ) := by
  obtain ⟨d, ds, hd⟩ : ∃ d ds, decDigits k = d :: ds := by
    rcases h : decDigits k with _ | ⟨d, ds⟩
    · exact absurd h (decDigits_ne_nil k)
    · exact ⟨d, ds, rfl⟩
  have hall : ∀ c ∈ d :: ds, c.isDigit = true := hd ▸ decDigits_all_digit k
  have hdd : d.isDigit = true := hall d (List.mem_cons_self _ _)
  have h1 : List.dropWhile isJsWs (d :: (ds ++ ("px".data))) = d :: (ds ++ ("px".data)) := by
    rw [List.dropWhile_cons, (digit_ne_signs d hdd).2.2.2]
    simp
  rw [jsParseFloat, hd, List.cons_append, h1, stripSign_of_digit d _ hdd]
  dsimp only
  rw [← List.cons_append, takeWhile_append_all _ _ _ hall, dropWhile_append_all _ _ _ hall,
    show List.takeWhile Char.isDigit ("px".data) = [] from by decide,
    show List.dropWhile Char.isDigit ("px".data) = ("px".data) from by decide,
    List.append_nil, ← hd]
  norm_num [foldDec_decDigits, decDigits_ne_nil k,
    show (('p' : Char) = '.') = False from eq_false (by decide),
    show (('p' : Char) = 'e') = False from eq_false (by decide),
    show (('p' : Char) = 'E') = False from eq_false (by decide),
    show foldDec [] = 0 from rfl]

/-- Every non-null result of `normalizeRadius` is a decimal number of at
most 9999 followed by `px`. -/
lemma normalizeRadius_shape (w s : List Char) (h : normalizeRadius w = some s) :
    ∃ k : ℕ, k ≤ 9999 ∧ s = decDigits k ++ ("px".data) := by
  rw [normalizeRadius] at h
  split_ifs at h with h1 h2
  · injection h with h
    exact ⟨9999, le_refl _, by rw [← h]; decide⟩
  · rcases hp : jsParseFloat w with _ | px
    · rw [hp] at h
      exact absurd h (by simp)
    · rw [hp] at h
      dsimp only at h
      by_cases h3 : px ≤ 0
      · rw [if_pos h3] at h
        exact absurd h (by simp)
      · rw [if_neg h3] at h
        injection h with h
        rw [not_le] at h3
        have hnot9999 : ¬ (9999 ≤ (jsParseFloat w).getD 0) := fun hx =>
          h2 (Or.inr (Or.inr (Or.inr hx)))
        rw [hp] at hnot9999
        have hpx : px < 9999 := not_le.mp (by simpa using hnot9999)
        have hge : 0 ≤ jsRound px := by
          rw [jsRound]
          exact Int.le_floor.mpr (by push_cast; linarith)
        have hle : jsRound px ≤ 9999 := by
          rw [jsRound]
          have : ⌊px + 1/2⌋ < 10000 := Int.floor_lt.mpr (by push_cast; linarith)
          omega
        refine ⟨(jsRound px).toNat, by omega, ?_⟩
        rw [← h, intDecStr, if_neg (by omega)]
        congr 2
        omega

/-- `'%'` never occurs in a normalized radius string. -/
lemma pct_not_mem_shape (k : ℕ) : '%' ∉ decDigits k ++ ("px".data) := by
  intro hm
  rcases List.mem_append.mp hm with hm | hm
  · exact absurd (decDigits_all_digit k '%' hm) (by decide)
  · exact absurd hm (by decide)

lemma pxOf_shape (k : ℕ) : pxOf (decDigits k ++ ("px".data)) = k := by
  rw [pxOf, parse_decPx]
  rfl

lemma parseRadiusValue_shape (k : ℕ) :
    parseRadiusValue (decDigits k ++ ("px".data)) = k := by
  rw [parseRadiusValue]
  by_cases h9 : decDigits k ++ ("px".data) = ("9999px".data)
  · rw [if_pos (Or.inl h9)]
    have heq : decDigits k ++ ("px".data) = decDigits 9999 ++ ("px".data) := by
      rw [h9]
      decide
    have hk9 : k = 9999 := by
      have hdd := List.append_cancel_right heq
      have := congrArg foldDec hdd
      rwa [foldDec_decDigits, foldDec_decDigits] at this
    rw [hk9]
    norm_num
  · rw [if_neg ?_]
    · rw [parse_decPx]
      rfl
    · rintro (he | hm)
      · exact h9 he
      · exact pct_not_mem_shape k hm

/-- Every value appearing in `normVals` has the normalized shape. -/
lemma normVals_shape (raw : List RawRadius) (v : List Char) (hv : v ∈ normVals raw) :
    ∃ k : ℕ, k ≤ 9999 ∧ v = decDigits k ++ ("px".data) := by
  rw [normVals] at hv
  rcases List.mem_filterMap.mp hv with ⟨i, _, hi⟩
  exact normalizeRadius_shape _ _ hi

/-! ## Claim C9: failure isolation in the orchestrator -/

/-- Claim C9, counterexample.  When the borders extractor fails with message
`"boom"` while every other extractor succeeds, the aggregate's `radii` and
`borders` slots are *not* the `{error: "boom"}` stub: the orchestrator reads
`.radii`/`.borders` off the stub object, so both fields are `undefined`
(`none`) and the message is dropped. -/
theorem c9_error_stub_cx :
    (runAllExtractors () (fun _ => .ok "c") (fun _ => .ok "t") (fun _ => .ok "s")
      (fun _ => (Except.error "boom" : Except String (BordersOut String String)))
      (fun _ => .ok "sh") (fun _ => .ok "comp")
      (fun _ => .ok (⟨"fw", "icons", "bem"⟩ : FrameworksOut String String String))
      (fun _ => .ok "bp") 0).radii = none ∧
    (runAllExtractors () (fun _ => .ok "c") (fun _ => .ok "t") (fun _ => .ok "s")
      (fun _ => (Except.error "boom" : Except String (BordersOut String String)))
      (fun _ => .ok "sh") (fun _ => .ok "comp")
      (fun _ => .ok (⟨"fw", "icons", "bem"⟩ : FrameworksOut String String String))
      (fun _ => .ok "bp") 0).borders = none :=
  ⟨rfl, rfl⟩

/-- Claim C9, amended: `runAllExtractors` always completes (the model is a
total function — no exception crosses the extractor→orchestrator boundary)
and each of the six directly-stored slots (`colors`, `typography`,
`spacing`, `shadows`, `breakpoints`, `components`) is exactly that
extractor's settled result, i.e. the `{error: m}` stub when it failed and
its isolated result otherwise — whichever extractors fail.  The two
destructured results behave differently: when the borders extractor fails
with message `m` its `radii` and `borders` fields are `undefined` (`none`)
rather than the stub — the message is lost — and when the frameworks
extractor fails its `frameworks`, `iconSystems` and `cssMethodology` fields
are likewise `none`; when either succeeds, its destructured fields carry the
components of its result. -/
theorem c9_failure_isolation
    {Page γc γt γs ρ β γsh γbp γcomp φ ι κ : Type}
    (page : Page)
    (ec : Page → Except String γc) (et : Page → Except String γt)
    (es : Page → Except String γs)
    (eb : Page → Except String (BordersOut ρ β))
    (esh : Page → Except String γsh) (ecomp : Page → Except String γcomp)
    (efw : Page → Except String (FrameworksOut φ ι κ))
    (ebp : Page → Except String γbp) (ms : ℕ) :
    (runAllExtractors page ec et es eb esh ecomp efw ebp ms).colors = ec page ∧
    (runAllExtractors page ec et es eb esh ecomp efw ebp ms).typography = et page ∧
    (runAllExtractors page ec et es eb esh ecomp efw ebp ms).spacing = es page ∧
    (runAllExtractors page ec et es eb esh ecomp efw ebp ms).shadows = esh page ∧
    (runAllExtractors page ec et es eb esh ecomp efw ebp ms).breakpoints = ebp page ∧
    (runAllExtractors page ec et es eb esh ecomp efw ebp ms).components = ecomp page ∧
    (∀ m : String, eb page = .error m →
      (runAllExtractors page ec et es eb esh ecomp efw ebp ms).radii = none ∧
      (runAllExtractors page ec et es eb esh ecomp efw ebp ms).borders = none) ∧
    (∀ vb : BordersOut ρ β, eb page = .ok vb →
      (runAllExtractors page ec et es eb esh ecomp efw ebp ms).radii = some vb.radii ∧
      (runAllExtractors page ec et es eb esh ecomp efw ebp ms).borders = some vb.borders) ∧
    (∀ m : String, efw page = .error m →
      (runAllExtractors page ec et es eb esh ecomp efw ebp ms).frameworks = none ∧
      (runAllExtractors page ec et es eb esh ecomp efw ebp ms).iconSystems = none ∧
      (runAllExtractors page ec et es eb esh ecomp efw ebp ms).cssMethodology = none) ∧
    (∀ vf : FrameworksOut φ ι κ, efw page = .ok vf →
      (runAllExtractors page ec et es eb esh ecomp efw ebp ms).frameworks
        = some vf.frameworks ∧
      (runAllExtractors page ec et es eb esh ecomp efw ebp ms).iconSystems
        = some vf.iconSystems ∧
      (runAllExtractors page ec et es eb esh ecomp efw ebp ms).cssMethodology
        = some vf.cssMethodology) := by
  refine ⟨rfl, rfl, rfl, rfl, rfl, rfl, ?_, ?_, ?_, ?_⟩
  · intro m hm
    exact ⟨by simp [runAllExtractors, fieldOr, hm], by simp [runAllExtractors, fieldOr, hm]⟩
  · intro vb hb
    exact ⟨by simp [runAllExtractors, fieldOr, hb], by simp [runAllExtractors, fieldOr, hb]⟩
  · intro m hm
    exact ⟨by simp [runAllExtractors, fieldOr, hm], by simp [runAllExtractors, fieldOr, hm],
      by simp [runAllExtractors, fieldOr, hm]⟩
  · intro vf hf
    exact ⟨by simp [runAllExtractors, fieldOr, hf], by simp [runAllExtractors, fieldOr, hf],
      by simp [runAllExtractors, fieldOr, hf]⟩

/-- Witness for the amended C9 at concrete extractors, exercising both
directions for both destructured extractors: a failing borders extractor
beside a succeeding frameworks extractor, and a failing frameworks extractor
beside a succeeding borders extractor. -/
theorem c9_failure_isolation_witness :
    ((runAllExtractors () (fun _ => .ok "c") (fun _ => .ok "t") (fun _ => .ok "s")
        (fun _ => (Except.error "boom" : Except String (BordersOut String String)))
        (fun _ => .ok "sh") (fun _ => .ok "comp")
        (fun _ => .ok (⟨"fw", "icons", "bem"⟩ : FrameworksOut String String String))
        (fun _ => .ok "bp") 7).radii = none ∧
      (runAllExtractors () (fun _ => .ok "c") (fun _ => .ok "t") (fun _ => .ok "s")
        (fun _ => (Except.error "boom" : Except String (BordersOut String String)))
        (fun _ => .ok "sh") (fun _ => .ok "comp")
        (fun _ => .ok (⟨"fw", "icons", "bem"⟩ : FrameworksOut String String String))
        (fun _ => .ok "bp") 7).borders = none ∧
      (runAllExtractors () (fun _ => .ok "c") (fun _ => .ok "t") (fun _ => .ok "s")
        (fun _ => (Except.error "boom" : Except String (BordersOut String String)))
        (fun _ => .ok "sh") (fun _ => .ok "comp")
        (fun _ => .ok (⟨"fw", "icons", "bem"⟩ : FrameworksOut String String String))
        (fun _ => .ok "bp") 7).frameworks = some "fw" ∧
      (runAllExtractors () (fun _ => .ok "c") (fun _ => .ok "t") (fun _ => .ok "s")
        (fun _ => (Except.error "boom" : Except String (BordersOut String String)))
        (fun _ => .ok "sh") (fun _ => .ok "comp")
        (fun _ => .ok (⟨"fw", "icons", "bem"⟩ : FrameworksOut String String String))
        (fun _ => .ok "bp") 7).colors = .ok "c") ∧
    ((runAllExtractors () (fun _ => .ok "c") (fun _ => .ok "t") (fun _ => .ok "s")
        (fun _ => (.ok ⟨"r", "bd"⟩ : Except String (BordersOut String String)))
        (fun _ => .ok "sh") (fun _ => .ok "comp")
        (fun _ => (Except.error "nofw" :
          Except String (FrameworksOut String String String)))
        (fun _ => .ok "bp") 7).frameworks = none ∧
      (runAllExtractors () (fun _ => .ok "c") (fun _ => .ok "t") (fun _ => .ok "s")
        (fun _ => (.ok ⟨"r", "bd"⟩ : Except String (BordersOut String String)))
        (fun _ => .ok "sh") (fun _ => .ok "comp")
        (fun _ => (Except.error "nofw" :
          Except String (FrameworksOut String String String)))
        (fun _ => .ok "bp") 7).iconSystems = none ∧
      (runAllExtractors () (fun _ => .ok "c") (fun _ => .ok "t") (fun _ => .ok "s")
        (fun _ => (.ok ⟨"r", "bd"⟩ : Except String (BordersOut String String)))
        (fun _ => .ok "sh") (fun _ => .ok "comp")
        (fun _ => (Except.error "nofw" :
          Except String (FrameworksOut String String String)))
        (fun _ => .ok "bp") 7).cssMethodology = none ∧
      (runAllExtractors () (fun _ => .ok "c") (fun _ => .ok "t") (fun _ => .ok "s")
        (fun _ => (.ok ⟨"r", "bd"⟩ : Except String (BordersOut String String)))
        (fun _ => .ok "sh") (fun _ => .ok "comp")
        (fun _ => (Except.error "nofw" :
          Except String (FrameworksOut String String String)))
        (fun _ => .ok "bp") 7).radii = some "r") := by
  have hA := c9_failure_isolation () (fun _ => .ok "c") (fun _ => .ok "t") (fun _ => .ok "s")
    (fun _ => (Except.error "boom" : Except String (BordersOut String String)))
    (fun _ => .ok "sh") (fun _ => .ok "comp")
    (fun _ => .ok (⟨"fw", "icons", "bem"⟩ : FrameworksOut String String String))
    (fun _ => .ok "bp") 7
  have hB := c9_failure_isolation () (fun _ => .ok "c") (fun _ => .ok "t") (fun _ => .ok "s")
    (fun _ => (.ok ⟨"r", "bd"⟩ : Except String (BordersOut String String)))
    (fun _ => .ok "sh") (fun _ => .ok "comp")
    (fun _ => (Except.error "nofw" : Except String (FrameworksOut String String String)))
    (fun _ => .ok "bp") 7
  refine ⟨⟨?_, ?_, ?_, ?_⟩, ?_, ?_, ?_, ?_⟩
  · exact (hA.2.2.2.2.2.2.1 "boom" rfl).1
  · exact (hA.2.2.2.2.2.2.1 "boom" rfl).2
  · exact (hA.2.2.2.2.2.2.2.2.2 ⟨"fw", "icons", "bem"⟩ rfl).1
  · exact hA.1
  · exact (hB.2.2.2.2.2.2.2.2.1 "nofw" rfl).1
  · exact (hB.2.2.2.2.2.2.2.2.1 "nofw" rfl).2.1
  · exact (hB.2.2.2.2.2.2.2.2.1 "nofw" rfl).2.2
  · exact (hB.2.2.2.2.2.2.2.1 ⟨"r", "bd"⟩ rfl).1

lemma jsRound_intCast (n : ℤ) : jsRound (n : ℚ) = n := by
  rw [jsRound, Int.floor_eq_iff]
  constructor
  · norm_num
  · norm_num

/-! ## Claim C1: the `[4,8,8,16,16,16,24]` spacing scenario -/

/-- Evaluation of the histogram of `processSpacing` on the C1 samples. -/
lemma c1_buildCounts :
    buildCounts [4, 8, 8, 16, 16, 16, 24] = [⟨4, 1⟩, ⟨8, 2⟩, ⟨16, 3⟩, ⟨24, 1⟩] := by
  have r4 : jsRound 4 = 4 := by norm_num [jsRound]
  have r8 : jsRound 8 = 8 := by norm_num [jsRound]
  have r16 : jsRound 16 = 16 := by norm_num [jsRound]
  have r24 : jsRound 24 = 24 := by norm_num [jsRound]
  simp [buildCounts, List.foldl, r4, r8, r16, r24, histInsert]

/-- Evaluation of `detectSpacingScale` on the C1 histogram: the four distinct
values are `16, 8, 4, 24`, of which `16, 8, 24` are multiples of 8, so the
8px-multiple ratio is `3/4 > 0.7` and the detected base unit is 8px. -/
lemma c1_detect :
    detectSpacingScale [⟨16, 3⟩, ⟨8, 2⟩, ⟨4, 1⟩, ⟨24, 1⟩]
      = ⟨"8px", 8, [⟨8, 2⟩, ⟨16, 3⟩], "4px grid"⟩ := by
  norm_num [detectSpacingScale, List.filter, List.find?, List.filterMap]

lemma c1_slot_xs : scaleSlot [⟨8, 2⟩, ⟨16, 3⟩] 8 8 = some ⟨"8px".data, "low"⟩ := by
  rw [scaleSlot]
  norm_num [List.find?]
  exact ⟨by decide, by decide⟩

lemma c1_slot_sm : scaleSlot [⟨8, 2⟩, ⟨16, 3⟩] 8 16 = some ⟨"16px".data, "medium"⟩ := by
  rw [scaleSlot]
  norm_num [List.find?]
  exact ⟨by decide, by decide⟩

lemma c1_slot_none (e : ℤ) (he : 21 ≤ e) : scaleSlot [⟨8, 2⟩, ⟨16, 3⟩] 8 e = none := by
  rw [scaleSlot]
  have h8 : ¬ (|(8 : ℚ) - (e : ℚ)| ≤ 4) := by
    rw [abs_sub_comm, abs_sub_le_iff]
    push_neg
    intro h
    have : (21 : ℚ) ≤ (e : ℚ) := by exact_mod_cast he
    linarith
  have h16 : ¬ (|(16 : ℚ) - (e : ℚ)| ≤ 4) := by
    rw [abs_sub_comm, abs_sub_le_iff]
    push_neg
    intro h
    have : (21 : ℚ) ≤ (e : ℚ) := by exact_mod_cast he
    linarith
  simp only [List.find?]
  norm_num [h8, h16]

/-- The full pipeline on the C1 samples. -/
lemma c1_run :
    processSpacing (samplesOnly [4, 8, 8, 16, 16, 16, 24])
      = { unit := "8px"
          scale := ⟨some ⟨"8px".data, "low"⟩, some ⟨"16px".data, "medium"⟩,
            none, none, none, none, none⟩
          buttonPadding := none, inputPadding := none
          cardPadding := none, modalPadding := none
          pageMargin := some ⟨"16px".data, "medium"⟩
          sectionGap := none } := by
  have hsort : sortByCountDesc [⟨4, 1⟩, ⟨8, 2⟩, ⟨16, 3⟩, ⟨24, 1⟩]
      = [⟨16, 3⟩, ⟨8, 2⟩, ⟨4, 1⟩, ⟨24, 1⟩] := by decide
  simp only [processSpacing, samplesOnly, c1_buildCounts, hsort, c1_detect]
  rw [mapToScaleNames]
  simp only [show (8 : ℤ) * 2 = 16 from by norm_num, show (8 : ℤ) * 4 = 32 from by norm_num,
    show (8 : ℤ) * 6 = 48 from by norm_num, show (8 : ℤ) * 8 = 64 from by norm_num,
    show (8 : ℤ) * 12 = 96 from by norm_num, show (8 : ℤ) * 16 = 128 from by norm_num]
  simp only [c1_slot_xs, c1_slot_sm,
    c1_slot_none 32 (by norm_num), c1_slot_none 48 (by norm_num),
    c1_slot_none 64 (by norm_num), c1_slot_none 96 (by norm_num),
    c1_slot_none 128 (by norm_num)]
  exact congrArg₂ _ (by decide) rfl

/-- Claim C1, counterexample.  The claim (and the spec scenario it quotes)
says the detected base unit on samples `[4,8,8,16,16,16,24]` is `4px` with an
`sm` token of `8px`.  On the code, the 8px-multiple test is applied to the
four *distinct* rounded values `16, 8, 4, 24`, giving ratio `3/4 > 0.7`, so
the base unit is `8px`, and the `sm` slot (expected value `2 × 8 = 16`) is
`16px` with confidence `medium` (count `3 ≥ 3`).  This closed evaluation
therefore refutes both parts of the claimed scenario. -/
theorem c1_scenario_cx :
    (processSpacing (samplesOnly [4, 8, 8, 16, 16, 16, 24])).unit = "8px" ∧
    (processSpacing (samplesOnly [4, 8, 8, 16, 16, 16, 24])).scale.sm
      = some ⟨"16px".data, "medium"⟩ := by
  rw [c1_run]
  exact ⟨rfl, rfl⟩

/-- Claim C1, amended: on the pixel samples `[4,8,8,16,16,16,24]` the detected
base unit is `8px`, the named scale's `sm` token is `16px` with confidence
`medium` (its count of 3 meets the medium threshold 3 but is below the high
threshold 10), and the `xs` token is `8px` with confidence `low` (count 2 is
below the medium threshold 3). -/
theorem c1_scenario_amended :
    (processSpacing (samplesOnly [4, 8, 8, 16, 16, 16, 24])).unit = "8px" ∧
    (processSpacing (samplesOnly [4, 8, 8, 16, 16, 16, 24])).scale.sm
      = some ⟨"16px".data, "medium"⟩ ∧
    (processSpacing (samplesOnly [4, 8, 8, 16, 16, 16, 24])).scale.xs
      = some ⟨"8px".data, "low"⟩ ∧
    countToConfidence 3 10 3 = "medium" ∧ countToConfidence 2 10 3 = "low" := by
  rw [c1_run]
  exact ⟨rfl, rfl, rfl, by decide, by decide⟩

/-! ## Claim C3: the 8px base-unit rule -/

/-- Claim C3, counterexample.  On samples `[8, 8, 8, 4]`, 75 % ≥ 70 % of the
*samples* are multiples of 8, yet the extractor reports `4px` (it computes the
fraction over the distinct values `8, 4`, giving `1/2`).  And on ten distinct
values of which exactly 7 (70 %) are multiples of 8 the extractor also
reports `4px`, because its comparison is strict. -/
theorem c3_unit_cx :
    (processSpacing (samplesOnly [8, 8, 8, 4])).unit = "4px" ∧
    7 * ([(8 : ℚ), 8, 8, 4].length)
      ≤ 10 * (([(8 : ℚ), 8, 8, 4].filter (fun q => jsRound q % 8 = 0)).length) ∧
    (processSpacing (samplesOnly [8, 16, 24, 32, 40, 48, 56, 1, 2, 3])).unit = "4px" ∧
    10 * ((buildCounts [8, 16, 24, 32, 40, 48, 56, 1, 2, 3]).filter
        (fun s => s.value % 8 = 0)).length
      = 7 * (buildCounts [8, 16, 24, 32, 40, 48, 56, 1, 2, 3]).length := by
  have r1 : jsRound 1 = 1 := by norm_num [jsRound]
  have r2 : jsRound 2 = 2 := by norm_num [jsRound]
  have r3 : jsRound 3 = 3 := by norm_num [jsRound]
  have r4 : jsRound 4 = 4 := by norm_num [jsRound]
  have r8 : jsRound 8 = 8 := by norm_num [jsRound]
  have r16 : jsRound 16 = 16 := by norm_num [jsRound]
  have r24 : jsRound 24 = 24 := by norm_num [jsRound]
  have r32 : jsRound 32 = 32 := by norm_num [jsRound]
  have r40 : jsRound 40 = 40 := by norm_num [jsRound]
  have r48 : jsRound 48 = 48 := by norm_num [jsRound]
  have r56 : jsRound 56 = 56 := by norm_num [jsRound]
  have hbc1 : buildCounts [8, 8, 8, 4] = [⟨4, 1⟩, ⟨8, 3⟩] := by
    simp [buildCounts, List.foldl, r4, r8, histInsert]
  have hbc2 : buildCounts [8, 16, 24, 32, 40, 48, 56, 1, 2, 3]
      = [⟨1, 1⟩, ⟨2, 1⟩, ⟨3, 1⟩, ⟨8, 1⟩, ⟨16, 1⟩, ⟨24, 1⟩, ⟨32, 1⟩, ⟨40, 1⟩,
         ⟨48, 1⟩, ⟨56, 1⟩] := by
    simp [buildCounts, List.foldl, r1, r2, r3, r8, r16, r24, r32, r40, r48, r56, histInsert]
  refine ⟨?_, ?_, ?_, ?_⟩
  · show (detectSpacingScale (sortByCountDesc (buildCounts [8, 8, 8, 4]))).unit = "4px"
    have hs : sortByCountDesc [⟨4, 1⟩, ⟨8, 3⟩] = [⟨8, 3⟩, ⟨4, 1⟩] := by decide
    rw [hbc1, hs]
    norm_num [detectSpacingScale, List.filter]
  · simp only [List.filter, r4, r8]
    norm_num
  · show (detectSpacingScale (sortByCountDesc
      (buildCounts [8, 16, 24, 32, 40, 48, 56, 1, 2, 3]))).unit = "4px"
    have hs : sortByCountDesc
        [⟨1, 1⟩, ⟨2, 1⟩, ⟨3, 1⟩, ⟨8, 1⟩, ⟨16, 1⟩, ⟨24, 1⟩, ⟨32, 1⟩, ⟨40, 1⟩, ⟨48, 1⟩, ⟨56, 1⟩]
      = [⟨1, 1⟩, ⟨2, 1⟩, ⟨3, 1⟩, ⟨8, 1⟩, ⟨16, 1⟩, ⟨24, 1⟩, ⟨32, 1⟩, ⟨40, 1⟩, ⟨48, 1⟩, ⟨56, 1⟩] := by
      decide
    rw [hbc2, hs]
    norm_num [detectSpacingScale, List.filter]
  · rw [hbc2]
    decide

/-! ## Claim C8: delta-E identity -/

/-- Shared helper: `deltaE76` of a LAB value with itself is zero. -/
lemma deltaE76_self (lab : LAB) : deltaE76 lab lab = 0 := by
  simp [deltaE76]

/-- Shared helper: `deltaE2000` of a LAB value with itself is zero (every
delta in the formula vanishes, so the final square root is of zero). -/
lemma deltaE2000_self (lab : LAB) : deltaE2000 lab lab = 0 := by
  simp only [deltaE2000, sub_self]
  norm_num

/-- Claim C8: for every LAB value, `deltaE76(lab, lab) = 0` and
`deltaE2000(lab, lab) = 0` — the distance of a color to itself is zero under
both formulas. -/
theorem c8_deltaE_identity (lab : LAB) :
    deltaE76 lab lab = 0 ∧ deltaE2000 lab lab = 0 :=
  ⟨deltaE76_self lab, deltaE2000_self lab⟩

/-! ## Claims C2 and C4: `deduplicateColors` -/

/-- Sum of the cluster counts under the code's `count || 1` valuation
(a missing or zero count acts as 1). -/
def sumCounts (l : List ColorRec) : ℕ := (l.map cntVal).sum

lemma cntVal_pos (c : ColorRec) : 1 ≤ cntVal c := by
  cases hc : c.count with
  | none => simp [cntVal, hc]
  | some n =>
    simp only [cntVal, hc]
    split <;> omega

lemma mergeRecs_count (e c : ColorRec) :
    (mergeRecs e c).count = some (cntVal e + cntVal c) := by
  unfold mergeRecs
  rcases c.sources with _ | cs <;> rcases e.sources with _ | es <;>
    rcases c.confidence with _ | cc <;> rcases e.confidence with _ | ec <;>
      simp only [] <;> (first | rfl | (split <;> rfl))

lemma mergeRecs_hex (e c : ColorRec) : (mergeRecs e c).hex = e.hex := by
  unfold mergeRecs
  rcases c.sources with _ | cs <;> rcases e.sources with _ | es <;>
    rcases c.confidence with _ | cc <;> rcases e.confidence with _ | ec <;>
      simp only [] <;> (first | rfl | (split <;> rfl))

lemma cntVal_mergeRecs (e c : ColorRec) : cntVal (mergeRecs e c) = cntVal e + cntVal c := by
  have h1 := cntVal_pos e
  conv_lhs => rw [cntVal, mergeRecs_count]
  dsimp only
  rw [if_neg (by omega)]

lemma sumCounts_cons (c : ColorRec) (l : List ColorRec) :
    sumCounts (c :: l) = cntVal c + sumCounts l := by
  simp [sumCounts]

lemma sumCounts_append (l₁ l₂ : List ColorRec) :
    sumCounts (l₁ ++ l₂) = sumCounts l₁ + sumCounts l₂ := by
  simp [sumCounts]

lemma tryMergeInto_sum (t : ℝ) (cl : Option LAB) (c : ColorRec) :
    ∀ acc acc', tryMergeInto t cl c acc = some acc' →
      sumCounts acc' = sumCounts acc + cntVal c := by
  intro acc
  induction acc with
  | nil => intro acc' h; simp [tryMergeInto] at h
  | cons e es ih =>
    intro acc' h
    rw [tryMergeInto] at h
    split at h
    · injection h with h
      subst h
      rw [sumCounts_cons, sumCounts_cons, cntVal_mergeRecs]
      omega
    · rcases Option.map_eq_some'.mp h with ⟨l', hl', rfl⟩
      rw [sumCounts_cons, sumCounts_cons, ih l' hl']
      omega

lemma tryMergeInto_hexes (t : ℝ) (cl : Option LAB) (c : ColorRec) :
    ∀ acc acc', tryMergeInto t cl c acc = some acc' →
      acc'.map ColorRec.hex = acc.map ColorRec.hex := by
  intro acc
  induction acc with
  | nil => intro acc' h; simp [tryMergeInto] at h
  | cons e es ih =>
    intro acc' h
    rw [tryMergeInto] at h
    split at h
    · injection h with h
      subst h
      simp [mergeRecs_hex]
    · rcases Option.map_eq_some'.mp h with ⟨l', hl', rfl⟩
      simp [ih l' hl']

lemma tryMergeInto_none_iff (t : ℝ) (cl : Option LAB) (c : ColorRec) :
    ∀ acc, tryMergeInto t cl c acc = none ↔ ∀ e ∈ acc, ¬ simTo t cl e := by
  intro acc
  induction acc with
  | nil => simp [tryMergeInto]
  | cons e es ih =>
    rw [tryMergeInto]
    constructor
    · intro h
      by_cases hse : simTo t cl e
      · rw [if_pos hse] at h
        exact absurd h (by simp)
      · rw [if_neg hse, Option.map_eq_none'] at h
        intro x hx
        rcases List.mem_cons.mp hx with rfl | hx'
        · exact hse
        · exact (ih.mp h) x hx'
    · intro h
      rw [if_neg (h e (List.mem_cons_self _ _)), Option.map_eq_none']
      exact ih.mpr (fun x hx => h x (List.mem_cons_of_mem _ hx))

/-- The candidate's LAB in `dedupStep` is `labOfHex` of its hex. -/
lemma labOfRGB_eq_labOfHex (c : ColorRec) (rgb : RGB)
    (h : parseColor c.hex = some rgb) : labOfRGB rgb = labOfHex c.hex := by
  rw [labOfHex, h, Option.some_bind]

lemma dedupStep_sum (t : ℝ) (acc : List ColorRec) (c : ColorRec)
    (hne : c.hex ≠ []) (hp : (parseColor c.hex).isSome) :
    sumCounts (dedupStep t acc c) = sumCounts acc + cntVal c := by
  rcases Option.isSome_iff_exists.mp hp with ⟨rgb, hrgb⟩
  rw [dedupStep, if_neg hne, hrgb]
  dsimp only
  rcases htm : tryMergeInto t (labOfRGB rgb) c acc with _ | acc'
  · dsimp only
    rw [sumCounts_append]
    simp [sumCounts]
  · dsimp only
    exact tryMergeInto_sum t _ c acc acc' htm

lemma dedupFold_sum (t : ℝ) :
    ∀ (l : List ColorRec) (acc : List ColorRec),
      (∀ c ∈ l, c.hex ≠ [] ∧ (parseColor c.hex).isSome) →
      sumCounts (List.foldl (dedupStep t) acc l) = sumCounts acc + sumCounts l := by
  intro l
  induction l with
  | nil => intro acc _; simp [sumCounts]
  | cons c cs ih =>
    intro acc h
    have hcs : ∀ x ∈ cs, x.hex ≠ [] ∧ (parseColor x.hex).isSome :=
      fun x hx => h x (List.mem_cons_of_mem _ hx)
    have hc := h c (List.mem_cons_self _ _)
    rw [List.foldl_cons, ih _ hcs, dedupStep_sum t acc c hc.1 hc.2, sumCounts_cons]
    omega

/-- Claim C2, counterexample.  First: an entry whose `hex` does not parse is
silently dropped, losing its count — on `[{hex: "zz", count: 5}]` the output
is empty, so the cluster counts sum to 0 while the input counts sum to 5.
Second: a present count of `0` is revalued as 1 by the code's `count || 1`
fallback — two identical colors with `count: 0` merge into a cluster with
count `2`, while the input `count` fields sum to 0. -/
theorem c2_count_sum_cx :
    deduplicateColors [⟨"zz".data, some 5, none, none⟩] 15 = [] ∧
    deduplicateColors [⟨"#000000".data, some 0, none, none⟩,
        ⟨"#000000".data, some 0, none, none⟩] 15
      = [⟨"#000000".data, some 2, none, none⟩] := by
  constructor
  · have hzz : parseColor ("zz".data) = none := by decide
    simp [deduplicateColors, dedupStep, hzz]
  · have hpc : parseColor ("#000000".data) = some ⟨some 0, some 0, some 0, some 1⟩ := by
      decide
    have hne : ¬ (("#000000".data) = ([] : List Char)) := by decide
    have hstep1 : dedupStep 15 [] ⟨"#000000".data, some 0, none, none⟩
        = [⟨"#000000".data, some 0, none, none⟩] := by
      rw [dedupStep, if_neg hne, hpc]
      dsimp only
      simp only [tryMergeInto]
      rfl
    have hl : labOfRGB ⟨some 0, some 0, some 0, some 1⟩
        = some (rgbToLab ((0 : ℤ) : ℝ) ((0 : ℤ) : ℝ) ((0 : ℤ) : ℝ)) := rfl
    have hsim : simTo 15 (labOfRGB ⟨some 0, some 0, some 0, some 1⟩)
        ⟨"#000000".data, some 0, none, none⟩ := by
      refine ⟨rgbToLab ((0 : ℤ) : ℝ) ((0 : ℤ) : ℝ) ((0 : ℤ) : ℝ),
        rgbToLab ((0 : ℤ) : ℝ) ((0 : ℤ) : ℝ) ((0 : ℤ) : ℝ), hl, ?_, ?_⟩
      · rw [recLab, labOfHex, hpc, Option.some_bind, hl]
      · rw [deltaE2000_self]
        norm_num
    have hstep2 : dedupStep 15 [⟨"#000000".data, some 0, none, none⟩]
        ⟨"#000000".data, some 0, none, none⟩
        = [⟨"#000000".data, some 2, none, none⟩] := by
      rw [dedupStep, if_neg hne, hpc]
      dsimp only
      simp only [tryMergeInto]
      rw [if_pos hsim]
      rfl
    show List.foldl (dedupStep 15) [] _ = _
    rw [List.foldl_cons, List.foldl_cons, List.foldl_nil, hstep1, hstep2]

/-- Claim C2, amended: when every input entry has a non-empty hex accepted by
`parseColor`, `deduplicateColors` preserves the total count, where an entry
without a count — or with count 0 — contributes 1 on both sides (the code's
`count || 1` valuation). -/
theorem c2_count_sum_amended (colors : List ColorRec) (t : ℝ)
    (h : ∀ c ∈ colors, c.hex ≠ [] ∧ (parseColor c.hex).isSome) :
    sumCounts (deduplicateColors colors t) = sumCounts colors := by
  rw [deduplicateColors, dedupFold_sum t colors [] h]
  simp [sumCounts]

/-- Witness for the amended C2 at a concrete input. -/
theorem c2_count_sum_amended_witness :
    (∀ c ∈ [(⟨"#3B82F6".data, some 5, none, none⟩ : ColorRec)],
      c.hex ≠ [] ∧ (parseColor c.hex).isSome) ∧
    sumCounts (deduplicateColors [⟨"#3B82F6".data, some 5, none, none⟩] 15)
      = sumCounts [⟨"#3B82F6".data, some 5, none, none⟩] :=
  ⟨by decide, c2_count_sum_amended _ 15 (by decide)⟩

/-- Similarity of two hex strings as `deduplicateColors` tests it (false
whenever either side fails to parse or has a `NaN` LAB). -/
def hexSim (t : ℝ) (cand ex : List Char) : Prop :=
  ∃ l1 l2, labOfHex cand = some l1 ∧ labOfHex ex = some l2 ∧ deltaE2000 l1 l2 < t

lemma simTo_labOfHex (t : ℝ) (x : List Char) (e : ColorRec) :
    simTo t (labOfHex x) e ↔ hexSim t x e.hex := Iff.rfl

/-- The invariant of the accepted-cluster list: every representative hex is
non-empty and parsable, and each one was not similar to any representative
accepted before it. -/
def goodClusters (t : ℝ) (l : List ColorRec) : Prop :=
  (∀ h ∈ l.map ColorRec.hex, h ≠ [] ∧ (parseColor h).isSome) ∧
  (l.map ColorRec.hex).Pairwise (fun h1 h2 => ¬ hexSim t h2 h1)

lemma goodClusters_step (t : ℝ) (acc : List ColorRec) (c : ColorRec)
    (hg : goodClusters t acc) : goodClusters t (dedupStep t acc c) := by
  rw [dedupStep]
  by_cases hne : c.hex = []
  · rw [if_pos hne]
    exact hg
  · rw [if_neg hne]
    rcases hp : parseColor c.hex with _ | rgb
    · exact hg
    · dsimp only
      rcases htm : tryMergeInto t (labOfRGB rgb) c acc with _ | acc'
      · dsimp only
        have hmap : (acc ++ [c]).map ColorRec.hex = acc.map ColorRec.hex ++ [c.hex] := by
          simp
        constructor
        · rw [hmap]
          intro h hh
          rcases List.mem_append.mp hh with hh | hh
          · exact hg.1 h hh
          · rcases List.mem_singleton.mp hh with rfl
            exact ⟨hne, by rw [hp]; rfl⟩
        · rw [hmap, List.pairwise_append]
          refine ⟨hg.2, List.pairwise_singleton _ _, ?_⟩
          intro h1 hh1 h2 hh2
          rcases List.mem_singleton.mp hh2 with rfl
          rcases List.mem_map.mp hh1 with ⟨a, ha, rfl⟩
          have := (tryMergeInto_none_iff t (labOfRGB rgb) c acc).mp htm a ha
          rw [labOfRGB_eq_labOfHex c rgb hp, simTo_labOfHex] at this
          exact this
      · dsimp only
        have hmap := tryMergeInto_hexes t (labOfRGB rgb) c acc acc' htm
        exact ⟨by rw [hmap]; exact hg.1, by rw [hmap]; exact hg.2⟩

lemma goodClusters_fold (t : ℝ) :
    ∀ (l acc : List ColorRec), goodClusters t acc →
      goodClusters t (List.foldl (dedupStep t) acc l) := by
  intro l
  induction l with
  | nil => intro acc h; exact h
  | cons c cs ih =>
    intro acc h
    rw [List.foldl_cons]
    exact ih _ (goodClusters_step t acc c h)

/-- Running the fold over a list of pairwise non-similar, parsable clusters
that are also non-similar to everything already accepted simply appends. -/
lemma dedupFold_fixed (t : ℝ) :
    ∀ (l acc : List ColorRec),
      (∀ e ∈ l, e.hex ≠ [] ∧ (parseColor e.hex).isSome) →
      (l.map ColorRec.hex).Pairwise (fun h1 h2 => ¬ hexSim t h2 h1) →
      (∀ x ∈ l, ∀ a ∈ acc, ¬ hexSim t x.hex a.hex) →
      List.foldl (dedupStep t) acc l = acc ++ l := by
  intro l
  induction l with
  | nil => intro acc _ _ _; simp
  | cons u us ih =>
    intro acc hOK hPW hNS
    rcases Option.isSome_iff_exists.mp (hOK u (List.mem_cons_self _ _)).2 with ⟨rgb, hrgb⟩
    have hnm : tryMergeInto t (labOfRGB rgb) u acc = none := by
      refine (tryMergeInto_none_iff t _ u acc).mpr (fun e he => ?_)
      rw [labOfRGB_eq_labOfHex u rgb hrgb, simTo_labOfHex]
      exact hNS u (List.mem_cons_self _ _) e he
    have hstep : dedupStep t acc u = acc ++ [u] := by
      rw [dedupStep, if_neg (hOK u (List.mem_cons_self _ _)).1, hrgb]
      dsimp only
      rw [hnm]
    rw [List.map_cons, List.pairwise_cons] at hPW
    have hNS' : ∀ x ∈ us, ∀ a ∈ acc ++ [u], ¬ hexSim t x.hex a.hex := by
      intro x hx a ha
      rcases List.mem_append.mp ha with ha | ha
      · exact hNS x (List.mem_cons_of_mem _ hx) a ha
      · rcases List.mem_singleton.mp ha with rfl
        exact hPW.1 x.hex (List.mem_map_of_mem _ hx)
    rw [List.foldl_cons, hstep,
      ih (acc ++ [u]) (fun e he => hOK e (List.mem_cons_of_mem _ he)) hPW.2 hNS',
      List.append_assoc]
    rfl

/-- Claim C4: `deduplicateColors` is idempotent — applying it (with the same
threshold) to its own output returns exactly the same cluster list, with the
same representative hexes, counts, sources and confidences.  Each output
cluster parses and was accepted only because it was not within the threshold
of any earlier cluster; on the second run those very comparisons repeat, so
no merge fires and every cluster is re-appended unchanged. -/
theorem c4_dedup_idempotent (colors : List ColorRec) (t : ℝ) :
    deduplicateColors (deduplicateColors colors t) t = deduplicateColors colors t := by
  have hg : goodClusters t (deduplicateColors colors t) := by
    rw [deduplicateColors]
    exact goodClusters_fold t colors [] ⟨by simp, by simp⟩
  conv_lhs => rw [deduplicateColors]
  rw [dedupFold_fixed t (deduplicateColors colors t) []
    (fun e he => hg.1 e.hex (List.mem_map_of_mem _ he)) hg.2
    (fun x _ a ha => absurd ha (List.not_mem_nil a))]
  rfl

/-- Claim C3, amended: for every collected sample list, the spacing-scale
detection reports base unit `8px` if and only if strictly more than 70 % of
the *distinct rounded* sample values are multiples of 8, and reports the
default `4px` otherwise. -/
theorem c3_unit_amended (raw : RawSpacing) :
    (processSpacing raw).unit = "8px" ↔
      7 * (buildCounts raw.values).length
        < 10 * ((buildCounts raw.values).filter (fun s => s.value % 8 = 0)).length := by
  have hperm := perm_sortByCountDesc (buildCounts raw.values)
  show (detectSpacingScale (sortByCountDesc (buildCounts raw.values))).unit = "8px" ↔ _
  rw [detect_unit_iff, hperm.length_eq, (hperm.filter _).length_eq]

/-! ## Claim C10: the radii scale buckets -/

lemma smB_shape (e : RadiusEntry) (k : ℕ) (hv : e.value = decDigits k ++ ("px".data)) :
    smB e = true ↔ pxOf e.value ≤ 4 := by
  rw [smB, hv, parse_decPx, pxOf, parse_decPx]
  simp [Option.any, pct_not_mem_shape k]
  omega

lemma mdB_shape (e : RadiusEntry) (k : ℕ) (hv : e.value = decDigits k ++ ("px".data)) :
    mdB e = true ↔ 4 < pxOf e.value ∧ pxOf e.value ≤ 8 := by
  rw [mdB, hv, parse_decPx, pxOf, parse_decPx]
  simp [Option.any, pct_not_mem_shape k]
  omega

lemma lgB_shape (e : RadiusEntry) (k : ℕ) (hv : e.value = decDigits k ++ ("px".data)) :
    lgB e = true ↔ 8 < pxOf e.value ∧ pxOf e.value ≤ 16 := by
  rw [lgB, hv, parse_decPx, pxOf, parse_decPx]
  simp [Option.any, pct_not_mem_shape k]
  omega

lemma xlB_shape (e : RadiusEntry) (k : ℕ) (hv : e.value = decDigits k ++ ("px".data)) :
    xlB e = true ↔ 16 < pxOf e.value ∧ pxOf e.value < 9999 := by
  rw [xlB, hv, parse_decPx, pxOf, parse_decPx]
  simp [Option.any, pct_not_mem_shape k]
  omega

lemma fullB_shape (e : RadiusEntry) (k : ℕ) (hv : e.value = decDigits k ++ ("px".data)) :
    fullB e = true ↔ 9999 ≤ pxOf e.value := by
  rw [fullB, hv, parse_decPx, pxOf, parse_decPx]
  simp [Option.any, pct_not_mem_shape k]

/-- A bucket filled from the first match of a range predicate holds a
normalized value in range, minimal among all normalized values in range. -/
lemma find_bucket_min (raw : List RawRadius) (pb : RadiusEntry → Bool) (P : ℚ → Prop)
    (hP : ∀ e ∈ sortedRadiusEntries raw, (pb e = true ↔ P (pxOf e.value)))
    (i : RadiusEntry) (hf : (sortedRadiusEntries raw).find? pb = some i) :
    i.value ∈ normVals raw ∧ P (pxOf i.value) ∧
      ∀ v ∈ normVals raw, P (pxOf v) → pxOf i.value ≤ pxOf v := by
  have hmem := List.mem_of_find?_eq_some hf
  have hpb := List.find?_some hf
  refine ⟨sortedEntries_val_mem raw i hmem, (hP i hmem).mp hpb, ?_⟩
  intro v hv hPv
  rcases normVal_mem_sortedEntries raw v hv with ⟨e, he, hev⟩
  have hpe : pb e = true := (hP e he).mpr (by rw [hev]; exact hPv)
  have hkey := find?_min_key pb _ (sorted_sortedEntries raw) i hf e he hpe
  rcases normVals_shape raw _ (sortedEntries_val_mem raw i hmem) with ⟨ki, _, hvi⟩
  rcases normVals_shape raw v hv with ⟨ke, _, hve⟩
  rw [entryKey, entryKey, hvi, hev, hve, parseRadiusValue_shape, parseRadiusValue_shape] at hkey
  rw [hvi, hve, pxOf_shape, pxOf_shape]
  exact hkey

/-- C10: for every raw radius sample list, the scale built by `processRadii`
always holds the key `none` with value `0px`, no usage and confidence `high`;
and reading the buckets as the partition the if/else chain of
`mapRadiiToScale` implements (`sm` ≤ 4px, `md` (4,8]px, `lg` (8,16]px, `xl`
(16,9999)px, `full` ≥ 9999px — a percentage normalizes to `9999px`), each
bucket, when present, holds a normalized collected value falling in its
range which is smallest among all normalized collected values in that
range; the `full` token holds the literal `9999px`, which is also present
among the normalized values and is the only normalized value of its range. -/
theorem c10_radii_buckets (raw : List RawRadius) :
    (processRadii raw).noneRad = ⟨"0px".data, none, "high"⟩ ∧
    (∀ tok, (processRadii raw).sm = some tok →
      tok.value ∈ normVals raw ∧ pxOf tok.value ≤ 4 ∧
        ∀ v ∈ normVals raw, pxOf v ≤ 4 → pxOf tok.value ≤ pxOf v) ∧
    (∀ tok, (processRadii raw).md = some tok →
      tok.value ∈ normVals raw ∧ (4 < pxOf tok.value ∧ pxOf tok.value ≤ 8) ∧
        ∀ v ∈ normVals raw, 4 < pxOf v ∧ pxOf v ≤ 8 → pxOf tok.value ≤ pxOf v) ∧
    (∀ tok, (processRadii raw).lg = some tok →
      tok.value ∈ normVals raw ∧ (8 < pxOf tok.value ∧ pxOf tok.value ≤ 16) ∧
        ∀ v ∈ normVals raw, 8 < pxOf v ∧ pxOf v ≤ 16 → pxOf tok.value ≤ pxOf v) ∧
    (∀ tok, (processRadii raw).xl = some tok →
      tok.value ∈ normVals raw ∧ (16 < pxOf tok.value ∧ pxOf tok.value < 9999) ∧
        ∀ v ∈ normVals raw, 16 < pxOf v ∧ pxOf v < 9999 → pxOf tok.value ≤ pxOf v) ∧
    (∀ tok, (processRadii raw).full = some tok →
      tok.value = ("9999px".data) ∧ ("9999px".data) ∈ normVals raw ∧
        ∀ v ∈ normVals raw, 9999 ≤ pxOf v → v = ("9999px".data)) := by
  refine ⟨?_, ?_, ?_, ?_, ?_, ?_⟩
  · rw [processRadii, mapRadiiToScale, foldScale_noneRad]
    rfl
  · intro tok htok
    have hc : (processRadii raw).sm = ((sortedRadiusEntries raw).find? smB).map bucketTok := by
      rw [processRadii, mapRadiiToScale,
        foldScale_first RadiiScale.sm smB bucketTok step_sm]
      rfl
    rw [hc] at htok
    rcases Option.map_eq_some'.mp htok with ⟨i, hf, rfl⟩
    exact find_bucket_min raw smB (fun q => q ≤ 4)
      (fun e he => by
        rcases normVals_shape raw e.value (sortedEntries_val_mem raw e he) with ⟨k, _, hv⟩
        exact smB_shape e k hv) i hf
  · intro tok htok
    have hc : (processRadii raw).md = ((sortedRadiusEntries raw).find? mdB).map bucketTok := by
      rw [processRadii, mapRadiiToScale,
        foldScale_first RadiiScale.md mdB bucketTok step_md]
      rfl
    rw [hc] at htok
    rcases Option.map_eq_some'.mp htok with ⟨i, hf, rfl⟩
    exact find_bucket_min raw mdB (fun q => 4 < q ∧ q ≤ 8)
      (fun e he => by
        rcases normVals_shape raw e.value (sortedEntries_val_mem raw e he) with ⟨k, _, hv⟩
        exact mdB_shape e k hv) i hf
  · intro tok htok
    have hc : (processRadii raw).lg = ((sortedRadiusEntries raw).find? lgB).map bucketTok := by
      rw [processRadii, mapRadiiToScale,
        foldScale_first RadiiScale.lg lgB bucketTok step_lg]
      rfl
    rw [hc] at htok
    rcases Option.map_eq_some'.mp htok with ⟨i, hf, rfl⟩
    exact find_bucket_min raw lgB (fun q => 8 < q ∧ q ≤ 16)
      (fun e he => by
        rcases normVals_shape raw e.value (sortedEntries_val_mem raw e he) with ⟨k, _, hv⟩
        exact lgB_shape e k hv) i hf
  · intro tok htok
    have hc : (processRadii raw).xl = ((sortedRadiusEntries raw).find? xlB).map bucketTok := by
      rw [processRadii, mapRadiiToScale,
        foldScale_first RadiiScale.xl xlB bucketTok step_xl]
      rfl
    rw [hc] at htok
    rcases Option.map_eq_some'.mp htok with ⟨i, hf, rfl⟩
    exact find_bucket_min raw xlB (fun q => 16 < q ∧ q < 9999)
      (fun e he => by
        rcases normVals_shape raw e.value (sortedEntries_val_mem raw e he) with ⟨k, _, hv⟩
        exact xlB_shape e k hv) i hf
  · intro tok htok
    have hc : (processRadii raw).full
        = ((sortedRadiusEntries raw).find? fullB).map fullTok := by
      rw [processRadii, mapRadiiToScale,
        foldScale_first RadiiScale.full fullB fullTok step_full]
      rfl
    rw [hc] at htok
    rcases Option.map_eq_some'.mp htok with ⟨i, hf, rfl⟩
    have hmem := List.mem_of_find?_eq_some hf
    have hpb := List.find?_some hf
    have hvm := sortedEntries_val_mem raw i hmem
    rcases normVals_shape raw i.value hvm with ⟨k, hk, hv⟩
    have h99 : (9999:ℚ) ≤ pxOf i.value := (fullB_shape i k hv).mp hpb
    have hk9 : k = 9999 := by
      rw [hv, pxOf_shape] at h99
      exact le_antisymm hk (by exact_mod_cast h99)
    have hval : i.value = ("9999px".data) := by
      rw [hv, hk9]
      decide
    refine ⟨rfl, hval ▸ hvm, ?_⟩
    intro v hvmem h99v
    rcases normVals_shape raw v hvmem with ⟨kv, hkv, hvv⟩
    rw [hvv, pxOf_shape] at h99v
    have hkv9 : kv = 9999 := le_antisymm hkv (by exact_mod_cast h99v)
    rw [hvv, hkv9]
    decide

/-- Witness: on the single sample `3px` of a `button`, the scale's `sm`
bucket is filled with that value, which lies in range and is minimal. -/
theorem c10_radii_buckets_witness :
    (processRadii [⟨"3px".data, "button", "3px".data⟩]).sm
        = some ⟨"3px".data, some ("button".data), "low"⟩ ∧
      (("3px".data) ∈ normVals [⟨"3px".data, "button", "3px".data⟩] ∧
        pxOf ("3px".data) ≤ 4) := by
  have hjp : jsParseFloat ("3px".data) = some 3 := by
    have h : ("3px".data) = decDigits 3 ++ ("px".data) := by decide
    rw [h, parse_decPx]
    norm_num
  have hjr : jsRound (3:ℚ) = 3 := by
    rw [jsRound]
    norm_num
  have hcond2 : ¬ (('%' ∈ ("3px".data)) ∨ ("3px".data) = ("9999px".data)
      ∨ ("3px".data) = ("999px".data) ∨ 9999 ≤ (jsParseFloat ("3px".data)).getD 0) := by
    rintro (h | h | h | h)
    · exact absurd h (by decide)
    · exact absurd h (by decide)
    · exact absurd h (by decide)
    · rw [hjp] at h
      norm_num at h
  have hnorm : normalizeRadius ("3px".data) = some ("3px".data) := by
    rw [normalizeRadius, if_neg (by decide), if_neg hcond2, hjp]
    dsimp only
    rw [if_neg (by norm_num : ¬ (3:ℚ) ≤ 0), hjr]
    decide
  have hentries : sortedRadiusEntries [(⟨"3px".data, "button", "3px".data⟩ : RawRadius)]
      = [⟨"3px".data, 1, ["button"], "low"⟩] := by
    rw [sortedRadiusEntries, buildRadiusGroups, List.foldl_cons, List.foldl_nil,
      radGroupStep]
    rw [hnorm]
    rfl
  have hsmB : smB ⟨"3px".data, 1, ["button"], "low"⟩ = true := by
    rw [smB, hjp]
    decide
  have hsm : (processRadii [⟨"3px".data, "button", "3px".data⟩]).sm
      = some ⟨"3px".data, some ("button".data), "low"⟩ := by
    rw [processRadii, hentries, mapRadiiToScale, List.foldl_cons, List.foldl_nil, step_sm,
      if_pos (show radScaleInit.sm = none from rfl), if_pos hsmB]
    rfl
  have hmain := (c10_radii_buckets [⟨"3px".data, "button", "3px".data⟩]).2.1 _ hsm
  exact ⟨hsm, hmain.1, hmain.2.1⟩

/-! ## Claim C5: the hex round trip -/

lemma jsLowerChar_digit (c : Char) (h : c.isDigit = true) : jsLowerChar c = c := by
  rw [jsLowerChar, if_neg]
  rintro ⟨hA, _⟩
  simp [Char.isDigit, UInt32.le_def, BitVec.le_def] at h
  simp [Char.le_def, UInt32.le_def, BitVec.le_def] at hA
  omega

lemma upperHex_facts : ∀ c ∈ ("0123456789ABCDEF".data),
    (hexVal? c).getD 0 < 16 ∧ jsUpperChar (hexDigitChar ((hexVal? c).getD 0)) = c := by decide

lemma jsParseInt16_pair : ∀ c1 ∈ ("0123456789ABCDEF".data), ∀ c2 ∈ ("0123456789ABCDEF".data),
    jsParseInt16 [c1, c2]
      = some (((16 * ((hexVal? c1).getD 0) + ((hexVal? c2).getD 0) : ℕ) : ℤ)) := by decide

lemma toHexByte_pair : ∀ a < 16, ∀ b < 16,
    toHexByte (some ((16 * a + b : ℕ) : ℤ)) = [hexDigitChar a, hexDigitChar b] := by decide

lemma intDecStr_natCast (n : ℕ) : intDecStr (n : ℤ) = decDigits n := by
  rw [intDecStr, if_neg (by omega)]
  congr 1

lemma parse10_dec (n : ℕ) : jsParseInt10 (decDigits n) = some (n : ℤ) := by
  obtain ⟨d, ds, hd⟩ : ∃ d ds, decDigits n = d :: ds := by
    rcases h : decDigits n with _ | ⟨d, ds⟩
    · exact absurd h (decDigits_ne_nil n)
    · exact ⟨d, ds, rfl⟩
  have hall : ∀ c ∈ d :: ds, c.isDigit = true := hd ▸ decDigits_all_digit n
  have hdd : d.isDigit = true := hall d (List.mem_cons_self _ _)
  have h1 : List.dropWhile isJsWs (d :: ds) = d :: ds := by
    rw [List.dropWhile_cons, (digit_ne_signs d hdd).2.2.2]
    simp
  rw [jsParseInt10, hd, h1, stripSign_of_digit d _ hdd]
  dsimp only
  have htw : List.takeWhile Char.isDigit (d :: ds) = d :: ds := by
    have h := takeWhile_append_all Char.isDigit (d :: ds) [] hall
    simpa using h
  rw [htw, if_neg (by simp), ← hd, foldDec_decDigits]
  rfl

lemma skipWs_digits (n : ℕ) (rest : List Char) :
    skipWs (decDigits n ++ rest) = decDigits n ++ rest := by
  obtain ⟨d, ds, hd⟩ : ∃ d ds, decDigits n = d :: ds := by
    rcases h : decDigits n with _ | ⟨d, ds⟩
    · exact absurd h (decDigits_ne_nil n)
    · exact ⟨d, ds, rfl⟩
  have hdd : d.isDigit = true := (hd ▸ decDigits_all_digit n) d (List.mem_cons_self _ _)
  rw [skipWs, hd, List.cons_append, List.dropWhile_cons, (digit_ne_signs d hdd).2.2.2]
  simp

lemma skipWs_cons_of_neg (c : Char) (h : isJsWs c = false) (t : List Char) :
    skipWs (c :: t) = c :: t := by
  rw [skipWs, List.dropWhile_cons, h]
  simp

lemma skipWs_cons_ws (t : List Char) : skipWs (' ' :: t) = skipWs t := by
  rw [skipWs, skipWs, List.dropWhile_cons, show isJsWs ' ' = true from rfl]
  simp

lemma matchDigits1_dec (n : ℕ) (c : Char) (hc : c.isDigit = false) (rest : List Char) :
    matchDigits1 (decDigits n ++ (c :: rest)) = some (decDigits n, c :: rest) := by
  rw [matchDigits1]
  have h1 : List.takeWhile Char.isDigit (decDigits n ++ (c :: rest)) = decDigits n := by
    rw [takeWhile_append_all _ _ _ (decDigits_all_digit n), List.takeWhile_cons, hc]
    simp
  have h2 : List.dropWhile Char.isDigit (decDigits n ++ (c :: rest)) = c :: rest := by
    rw [dropWhile_append_all _ _ _ (decDigits_all_digit n), List.dropWhile_cons, hc]
    simp
  simp only [h1, h2]
  rw [if_neg (decDigits_ne_nil n)]

lemma matchRgbAt_rgbStr (r g b : ℕ) :
    matchRgbAt (rgbStr r g b) = some ⟨decDigits r, decDigits g, decDigits b, none⟩ := by
  rw [rgbStr, matchRgbAt]
  simp only [skipWs_digits, skipWs_cons_of_neg ',' (by decide), skipWs_cons_ws,
    skipWs_cons_of_neg ')' (by decide),
    matchDigits1_dec r ',' (by decide), matchDigits1_dec g ',' (by decide),
    matchDigits1_dec b ')' (by decide)]

lemma jsToLower_id_of (l : List Char) (h : ∀ c ∈ l, jsLowerChar c = c) :
    jsToLower l = l := by
  induction l with
  | nil => rfl
  | cons c t ih =>
    rw [jsToLower, List.map_cons, h c (List.mem_cons_self _ _)]
    rw [jsToLower] at ih
    rw [ih fun x hx => h x (List.mem_cons_of_mem _ hx)]

lemma mem_rgbStr (r g b : ℕ) (c : Char) (hc : c ∈ rgbStr r g b) :
    c.isDigit = true ∨ c ∈ ("rgb(), ".data) := by
  rw [rgbStr] at hc
  simp only [List.mem_cons, List.mem_append] at hc
  rcases hc with rfl | rfl | rfl | rfl | hc
  · right; decide
  · right; decide
  · right; decide
  · right; decide
  · rcases hc with hc | hc
    · exact Or.inl (decDigits_all_digit r c hc)
    · rcases hc with rfl | rfl | hc
      · right; decide
      · right; decide
      · rcases hc with hc | hc
        · exact Or.inl (decDigits_all_digit g c hc)
        · rcases hc with rfl | rfl | hc
          · right; decide
          · right; decide
          · rcases hc with hc | hc
            · exact Or.inl (decDigits_all_digit b c hc)
            · rcases hc with rfl | h
              · right; decide
              · exact absurd h (List.not_mem_nil c)

lemma jsToLower_rgbStr (r g b : ℕ) : jsToLower (rgbStr r g b) = rgbStr r g b := by
  refine jsToLower_id_of _ fun c hc => ?_
  rcases mem_rgbStr r g b c hc with h | h
  · exact jsLowerChar_digit c h
  · have hfix : ∀ x ∈ ("rgb(), ".data), jsLowerChar x = x := by decide
    exact hfix c h

lemma jsTrim_rgbStr (r g b : ℕ) : jsTrim (rgbStr r g b) = rgbStr r g b := by
  have hback : rgbStr r g b
      = ('r' :: 'g' :: 'b' :: '(' ::
          (decDigits r ++ (',' :: ' ' :: (decDigits g ++ (',' :: ' ' :: decDigits b)))))
        ++ [')'] := by
    rw [rgbStr]
    simp
  have h1 : List.dropWhile isJsWs (rgbStr r g b) = rgbStr r g b := by
    rw [rgbStr, List.dropWhile_cons, show isJsWs 'r' = false from rfl]
    simp
  rw [jsTrim, h1, hback, List.reverse_append]
  rw [show List.reverse [')'] = [')'] from rfl, List.singleton_append, List.dropWhile_cons,
    show isJsWs ')' = false from rfl]
  simp

lemma searchRgb_rgbStr (r g b : ℕ) :
    searchRgb (rgbStr r g b) = some ⟨decDigits r, decDigits g, decDigits b, none⟩ := by
  have hm := matchRgbAt_rgbStr r g b
  rw [rgbStr] at hm ⊢
  rw [searchRgb, hm]

lemma parseColor_rgbStr (r g b : ℕ) :
    parseColor (rgbStr r g b) = some ⟨some (r : ℤ), some (g : ℤ), some (b : ℤ), some 1⟩ := by
  rw [parseColor, if_neg]
  · rw [jsTrim_rgbStr, jsToLower_rgbStr]
    have hs := searchRgb_rgbStr r g b
    rw [rgbStr] at hs ⊢
    dsimp only
    rw [hs]
    dsimp only
    rw [parse10_dec, parse10_dec, parse10_dec]
    split
    · rename_i tail heq
      injection heq with h1 _
      exact absurd h1 (by decide)
    · rfl
  · rintro (h | h)
    · rw [rgbStr] at h
      exact absurd h (by simp)
    · rw [rgbStr] at h
      injection h with h1 _
      exact absurd h1 (by decide)

lemma hexToRgb_six (c1 c2 c3 c4 c5 c6 : Char) :
    hexToRgb ('#' :: [c1, c2, c3, c4, c5, c6])
      = some ⟨jsParseInt16 [c1, c2], jsParseInt16 [c3, c4], jsParseInt16 [c5, c6], some 1⟩ :=
  rfl

lemma formatRgb_ints (r g b : ℕ) :
    formatRgb (some ⟨some (r : ℤ), some (g : ℤ), some (b : ℤ), some 1⟩)
      = some (rgbStr r g b) := by
  rw [formatRgb]
  dsimp only [jsNumStr]
  rw [intDecStr_natCast, intDecStr_natCast, intDecStr_natCast]
  simp only [List.append_assoc]
  simp [rgbStr]

/-- C5 (amended): the round trip hex → RGB → `rgb()` string → normalized hex
is the identity on `#` followed by six uppercase hexadecimal digits (the final
`.toUpperCase()` of `rgbToHex` makes the round trip of lowercase hex return
the uppercased string instead of the input). -/
theorem c5_roundtrip_amended (c1 c2 c3 c4 c5 c6 : Char)
    (h1 : c1 ∈ ("0123456789ABCDEF".data)) (h2 : c2 ∈ ("0123456789ABCDEF".data))
    (h3 : c3 ∈ ("0123456789ABCDEF".data)) (h4 : c4 ∈ ("0123456789ABCDEF".data))
    (h5 : c5 ∈ ("0123456789ABCDEF".data)) (h6 : c6 ∈ ("0123456789ABCDEF".data)) :
    (formatRgb (hexToRgb ('#' :: [c1, c2, c3, c4, c5, c6]))).bind normalizeToHex
      = some ('#' :: [c1, c2, c3, c4, c5, c6]) := by
  obtain ⟨hv1, hu1⟩ := upperHex_facts c1 h1
  obtain ⟨hv2, hu2⟩ := upperHex_facts c2 h2
  obtain ⟨hv3, hu3⟩ := upperHex_facts c3 h3
  obtain ⟨hv4, hu4⟩ := upperHex_facts c4 h4
  obtain ⟨hv5, hu5⟩ := upperHex_facts c5 h5
  obtain ⟨hv6, hu6⟩ := upperHex_facts c6 h6
  rw [hexToRgb_six, jsParseInt16_pair c1 h1 c2 h2, jsParseInt16_pair c3 h3 c4 h4,
    jsParseInt16_pair c5 h5 c6 h6, formatRgb_ints, Option.some_bind, normalizeToHex,
    parseColor_rgbStr, rgbToHex]
  dsimp only
  rw [toHexByte_pair _ hv1 _ hv2, toHexByte_pair _ hv3 _ hv4, toHexByte_pair _ hv5 _ hv6]
  simp [jsToUpper, hu1, hu2, hu3, hu4, hu5, hu6,
    show jsUpperChar '#' = '#' from by decide]

/-- C5 counterexample: the lowercase hex `#aabbcc` round-trips to its
uppercased form `#AABBCC`, not to itself. -/
theorem c5_roundtrip_cx :
    (formatRgb (hexToRgb ("#aabbcc".data))).bind normalizeToHex
        = some ("#AABBCC".data)
      ∧ ("#AABBCC".data) ≠ ("#aabbcc".data) := by decide

/-- Witness: the round trip is the identity on the uppercase hex `#1A2B3C`. -/
theorem c5_roundtrip_amended_witness :
    ('1' ∈ ("0123456789ABCDEF".data) ∧ 'A' ∈ ("0123456789ABCDEF".data)
      ∧ '2' ∈ ("0123456789ABCDEF".data) ∧ 'B' ∈ ("0123456789ABCDEF".data)
      ∧ '3' ∈ ("0123456789ABCDEF".data) ∧ 'C' ∈ ("0123456789ABCDEF".data)) ∧
    (formatRgb (hexToRgb ('#' :: ['1', 'A', '2', 'B', '3', 'C']))).bind normalizeToHex
      = some ('#' :: ['1', 'A', '2', 'B', '3', 'C']) :=
  ⟨⟨by decide, by decide, by decide, by decide, by decide, by decide⟩,
    c5_roundtrip_amended '1' 'A' '2' 'B' '3' 'C'
      (by decide) (by decide) (by decide) (by decide) (by decide) (by decide)⟩

/-! ## Claim C6: the normalized hex format -/

/-- The output format the spec asserts: `#` followed by exactly six uppercase
hexadecimal digits. -/
def isHashSixUpperHex (s : List Char) : Prop :=
  s.length = 7 ∧ s.head? = some '#' ∧ ∀ c ∈ s.tail, c ∈ ("0123456789ABCDEF".data)

instance decIsHashSixUpperHex (s : List Char) : Decidable (isHashSixUpperHex s) := by
  unfold isHashSixUpperHex
  infer_instance

set_option maxRecDepth 4000 in
lemma toHexByte_some_upper (v : ℤ) :
    (jsToUpper (toHexByte (some v))).length = 2
      ∧ ∀ c ∈ jsToUpper (toHexByte (some v)), c ∈ ("0123456789ABCDEF".data) := by
  have hb : ∀ m < 256, (jsToUpper (toHexByte (some ((m : ℕ) : ℤ)))).length = 2
      ∧ ∀ c ∈ jsToUpper (toHexByte (some ((m : ℕ) : ℤ))), c ∈ ("0123456789ABCDEF".data) := by
    decide
  have harg : ((max 0 (min 255 (((max 0 (min 255 v)).toNat : ℕ) : ℤ))).toNat)
      = (max 0 (min 255 v)).toNat := by omega
  have hv : toHexByte (some v) = toHexByte (some (((max 0 (min 255 v)).toNat : ℕ) : ℤ)) := by
    rw [toHexByte, toHexByte, harg]
  rw [hv]
  exact hb _ (by omega)

/-- C6 (amended): whenever `parseColor` accepts the input with three non-NaN
channels, `normalizeToHex` returns `#` followed by exactly six uppercase hex
digits.  (With a NaN channel the result embeds the string `NaN`, and the `hex`
field of `formatColorToken` is only the uppercased input, whatever its
shape.) -/
theorem c6_hex_format_amended (cs : List Char) (c : RGB) (r g b : ℤ)
    (hp : parseColor cs = some c) (hr : c.r = some r) (hg : c.g = some g)
    (hb : c.b = some b) :
    ∃ h, normalizeToHex cs = some h ∧ isHashSixUpperHex h := by
  rw [normalizeToHex, hp]
  simp only [rgbToHex]
  rw [hr, hg, hb]
  refine ⟨_, rfl, ?_⟩
  obtain ⟨hl1, hm1⟩ := toHexByte_some_upper r
  obtain ⟨hl2, hm2⟩ := toHexByte_some_upper g
  obtain ⟨hl3, hm3⟩ := toHexByte_some_upper b
  refine ⟨?_, ?_, ?_⟩
  · simp only [jsToUpper, List.map_cons, List.map_append, List.length_cons,
      List.length_append]
    rw [jsToUpper] at hl1 hl2 hl3
    rw [hl1, hl2, hl3]
  · simp [jsToUpper, show jsUpperChar '#' = '#' from by decide]
  · intro x hx
    simp only [jsToUpper, List.map_cons, List.map_append, List.tail_cons,
      List.mem_append] at hx
    rw [jsToUpper] at hm1 hm2 hm3
    rcases hx with (hx | hx) | hx
    · exact hm1 x hx
    · exact hm2 x hx
    · exact hm3 x hx

/-- C6 counterexample: `formatColorToken` keeps the (short) input shape in its
`hex` field, and an unparsable hex pair makes `normalizeToHex` embed `NAN`. -/
theorem c6_hex_format_cx :
    (formatColorToken ("#abc".data) "high" []).map ColorToken.hex = some ("#ABC".data)
      ∧ ¬ isHashSixUpperHex ("#ABC".data)
      ∧ normalizeToHex ("#gg0000".data) = some ("#NAN0000".data)
      ∧ ¬ isHashSixUpperHex ("#NAN0000".data) := by
  refine ⟨rfl, by decide, by decide, by decide⟩

/-- Witness: `rgb(1, 2, 3)` parses with integer channels and normalizes to a
six-digit uppercase hex string. -/
theorem c6_hex_format_amended_witness :
    parseColor ("rgb(1, 2, 3)".data) = some ⟨some 1, some 2, some 3, some 1⟩
      ∧ ∃ h, normalizeToHex ("rgb(1, 2, 3)".data) = some h ∧ isHashSixUpperHex h :=
  ⟨by decide, c6_hex_format_amended ("rgb(1, 2, 3)".data)
    ⟨some 1, some 2, some 3, some 1⟩ 1 2 3 (by decide) rfl rfl rfl⟩

/-! ## Claim C7: the parseColor contract -/

/-- `parseFloat` on a bare decimal digit string. -/
lemma parse_dec (k : ℕ) : jsParseFloat (decDigits k) = some (k : ℚ) := by
  obtain ⟨d, ds, hd⟩ : ∃ d ds, decDigits k = d :: ds := by
    rcases h : decDigits k with _ | ⟨d, ds⟩
    · exact absurd h (decDigits_ne_nil k)
    · exact ⟨d, ds, rfl⟩
  have hall : ∀ c ∈ d :: ds, c.isDigit = true := hd ▸ decDigits_all_digit k
  have hdd : d.isDigit = true := hall d (List.mem_cons_self _ _)
  have h1 : List.dropWhile isJsWs (d :: ds) = d :: ds := by
    rw [List.dropWhile_cons, (digit_ne_signs d hdd).2.2.2]
    simp
  have htw : List.takeWhile Char.isDigit (d :: ds) = d :: ds := by
    have h := takeWhile_append_all Char.isDigit (d :: ds) [] hall
    simpa using h
  have hdw : List.dropWhile Char.isDigit (d :: ds) = [] := by
    have h := dropWhile_append_all Char.isDigit (d :: ds) [] hall
    simpa using h
  rw [jsParseFloat, hd, h1, stripSign_of_digit d _ hdd]
  dsimp only
  rw [htw, hdw, ← hd]
  norm_num [foldDec_decDigits, decDigits_ne_nil k, show foldDec [] = 0 from rfl]
  rintro (h | h) <;> simp at h

lemma parse_half : jsParseFloat ("0.5".data) = some (1/2 : ℚ) := by
  rw [jsParseFloat,
    show List.dropWhile isJsWs ("0.5".data) = ("0.5".data) from by decide,
    show stripSign ("0.5".data) = (false, "0.5".data) from by decide]
  dsimp only
  rw [show List.takeWhile Char.isDigit ("0.5".data) = ['0'] from by decide,
    show List.dropWhile Char.isDigit ("0.5".data) = ('.' :: '5' :: []) from by decide]
  norm_num [show foldDec ['0'] = 0 from rfl, show foldDec ['5'] = 5 from rfl,
    show List.takeWhile Char.isDigit ('5' :: []) = ['5'] from by decide,
    show List.dropWhile Char.isDigit ('5' :: []) = [] from by decide]
  rintro (h | h) <;> simp at h

lemma hslToRgb_grey : hslToRgb 10 (some ((0 : ℚ)/100)) (some ((50 : ℚ)/100))
    = (some 128, some 128, some 128) := by
  rw [hslToRgb]
  rw [if_pos (by norm_num : (0 : ℚ)/100 = 0)]
  norm_num [jsRound]

lemma parseColor_hslGrey : parseColor ("hsl(10, 0%, 50%)".data)
    = some ⟨some 128, some 128, some 128, some 1⟩ := by
  have hstr : jsToLower (jsTrim ("hsl(10, 0%, 50%)".data)) = ("hsl(10, 0%, 50%)".data) := by
    decide
  have hsr : searchRgb ("hsl(10, 0%, 50%)".data) = none := by decide
  have hsh : searchHsl ("hsl(10, 0%, 50%)".data)
      = some ⟨"10".data, "0".data, "50".data, none⟩ := by decide
  have hh : jsParseInt10 ("10".data) = some 10 := by decide
  have hs : jsParseFloat ("0".data) = some 0 := by
    rw [show ("0".data) = decDigits 0 from by decide, parse_dec]
    norm_num
  have hl : jsParseFloat ("50".data) = some 50 := by
    rw [show ("50".data) = decDigits 50 from by decide, parse_dec]
    norm_num
  simp only [parseColor]
  rw [if_neg (by decide), hstr]
  split
  · rename_i tail heq
    injection heq with h1 _
    exact absurd h1 (by decide)
  · rw [hsr]
    dsimp only
    rw [hsh]
    dsimp only
    rw [hh, hs, hl]
    dsimp only [Option.getD, Option.map]
    rw [hslToRgb_grey]

lemma parseColor_hslaGrey : parseColor ("hsla(10, 0%, 50%, 0.5)".data)
    = some ⟨some 128, some 128, some 128, some (1/2 : ℚ)⟩ := by
  have hstr : jsToLower (jsTrim ("hsla(10, 0%, 50%, 0.5)".data))
      = ("hsla(10, 0%, 50%, 0.5)".data) := by decide
  have hsr : searchRgb ("hsla(10, 0%, 50%, 0.5)".data) = none := by decide
  have hsh : searchHsl ("hsla(10, 0%, 50%, 0.5)".data)
      = some ⟨"10".data, "0".data, "50".data, some ("0.5".data)⟩ := by decide
  have hh : jsParseInt10 ("10".data) = some 10 := by decide
  have hs : jsParseFloat ("0".data) = some 0 := by
    rw [show ("0".data) = decDigits 0 from by decide, parse_dec]
    norm_num
  have hl : jsParseFloat ("50".data) = some 50 := by
    rw [show ("50".data) = decDigits 50 from by decide, parse_dec]
    norm_num
  simp only [parseColor]
  rw [if_neg (by decide), hstr]
  split
  · rename_i tail heq
    injection heq with h1 _
    exact absurd h1 (by decide)
  · rw [hsr]
    dsimp only
    rw [hsh]
    dsimp only
    rw [hh, hs, hl]
    dsimp only [Option.getD, Option.map]
    rw [hslToRgb_grey, parse_half]

/-- C7 counterexample: `#gg0000` is not a recognized color syntax (`gg` is not
a hex pair), yet `parseColor` returns an RGB record (with a NaN red channel)
instead of null. -/
theorem c7_parse_cx :
    parseColor ("#gg0000".data) = some ⟨none, some 0, some 0, some 1⟩ := by decide

/-- C7 (amended): `parseColor` returns null for empty input, `transparent`,
unrecognized syntax and mis-sized hex strings, and accepts `#rgb`,
`#rrggbb`, `#rrggbbaa`, `rgb()`, `rgba()`, `hsl()` and `hsla()` syntax — but a
6/8-digit `#` string with non-hex characters yields a record with NaN
channels rather than null. -/
theorem c7_parse_contract :
    parseColor [] = none ∧
    parseColor ("transparent".data) = none ∧
    parseColor ("notacolor".data) = none ∧
    parseColor ("#12345".data) = none ∧
    parseColor ("#f00".data) = some ⟨some 255, some 0, some 0, some 1⟩ ∧
    parseColor ("#FF8800".data) = some ⟨some 255, some 136, some 0, some 1⟩ ∧
    (∃ a : Option ℚ, parseColor ("#ff000080".data) = some ⟨some 255, some 0, some 0, a⟩) ∧
    parseColor ("rgb(10, 20, 30)".data) = some ⟨some 10, some 20, some 30, some 1⟩ ∧
    (∃ a : Option ℚ,
      parseColor ("rgba(10, 20, 30, 0.5)".data) = some ⟨some 10, some 20, some 30, a⟩
        ∧ a = jsParseFloat ("0.5".data) ∧ jsParseFloat ("0.5".data) = some (1/2 : ℚ)) ∧
    parseColor ("hsl(10, 0%, 50%)".data) = some ⟨some 128, some 128, some 128, some 1⟩ ∧
    parseColor ("hsla(10, 0%, 50%, 0.5)".data)
      = some ⟨some 128, some 128, some 128, some (1/2 : ℚ)⟩ := by
  refine ⟨by decide, by decide, by decide, by decide, by decide, by decide,
    ⟨_, rfl⟩, by decide, ⟨_, rfl, rfl, parse_half⟩, parseColor_hslGrey, parseColor_hslaGrey⟩

end UIExtract
